import Mathlib

/-!
Verification of the Claus family-history breast-cancer risk calculator
(`risk_models/claus/claus.py`) against its natural-language specification.

The source module is embedded shallowly:

* Python integers become `ℤ`, Python floats become `ℚ` (exact rational
  arithmetic; `round(x, 3)` becomes round-half-to-even at three decimals).
* Python lists become `List`; Python indexing (including negative indices
  counting from the back, and `IndexError` on out-of-range access) is
  modelled by `pyGet`.
* A raised exception (`IndexError`, `TypeError`, `ZeroDivisionError`) is
  modelled as `Except.error ()`; the normal return value of
  `calculate_risk` is `Except.ok (some r)` for a risk `r` and
  `Except.ok none` for Python's `None` ("no result").
* The numeric tables live in `claus_tables.py`, which is outside the
  analysed sources; the spec treats them as externally supplied data.
  `calculate_risk` therefore takes the seven tables as an explicit
  `ClausTables` argument, and concrete spec-shaped tables (`specTables`)
  are modelled from the spec for evaluation.
-/

namespace Claus

set_option maxRecDepth 100000

/-- Python list indexing: a non-negative index counts from the front, a
negative index counts from the back, and anything out of range is an
`IndexError` (here: `none`). -/
def pyGet {α : Type} (l : List α) (i : ℤ) : Option α :=
  let j : ℤ := if i < 0 then i + l.length else i
  if 0 ≤ j then l.get? j.toNat else none

/-- `pyGet` with the `IndexError` raised into the `Except` monad. -/
def pyGetE {α : Type} (l : List α) (i : ℤ) : Except Unit α :=
  match pyGet l i with
  | some x => Except.ok x
  | none => Except.error ()

/-- The floor of a rational, computed on its reduced representation (so
that it evaluates by kernel reduction). -/
def qfloor (x : ℚ) : ℤ := x.num / (x.den : ℤ)

/-- Round a rational to the nearest integer, ties to even (Python's
rounding mode for `round`). -/
def roundHalfEven (x : ℚ) : ℤ :=
  let n := qfloor x
  let r := x - n
  if r < 1/2 then n
  else if 1/2 < r then n + 1
  else if n % 2 = 0 then n else n + 1

/-- Python's `round(x, 3)` on the rational model of a float. -/
def pyRound3 (x : ℚ) : ℚ := (roundHalfEven (x * 1000) : ℚ) / 1000

def VALID_MIN_AGE : ℤ := 20

def VALID_MAX_AGE : ℤ := 79

/-- The guard of the comprehension in `sort_ages`:
`VALID_MAX_AGE >= age >= VALID_MIN_AGE`. -/
def in_valid_range (age : ℤ) : Bool :=
  decide (VALID_MAX_AGE ≥ age ∧ age ≥ VALID_MIN_AGE)

/-- Python truthiness of an integer age (the `if x` filters). -/
def is_truthy (age : ℤ) : Bool := decide (age ≠ 0)

/-- `sort_ages`: keep only ages in the closed range
`[VALID_MIN_AGE, VALID_MAX_AGE]` and sort ascending. -/
def sort_ages (ages : List ℤ) : List ℤ :=
  List.insertionSort (· ≤ ·) (ages.filter in_valid_range)

/-- `_bin_age_to_index`: `None if not age else (age - 20) // 10`
(Python floor division). -/
def bin_age_to_index (age : ℤ) : Option ℤ :=
  if age = 0 then none else some (Int.fdiv (age - 20) 10)

/-- A table indexed by patient row and one relative index. -/
abbrev Table2 := List (List ℚ)

/-- A table indexed by patient row and two relative indices. -/
abbrev Table3 := List (List (List ℚ))

/-- `_lookup_claus_table(table, patient_index, relative1_index)` for a
two-dimensional table. Indexing with `None` is a `TypeError`. -/
def lookup_claus_table1 (table : Table2) (patient_index : ℤ)
    (relative1_index : Option ℤ) : Except Unit ℚ := do
  let row ← pyGetE table patient_index
  match relative1_index with
  | some i => pyGetE row i
  | none => Except.error ()

/-- `_lookup_claus_table(table, patient_index, relative1_index,
relative2_index)` for a three-dimensional table. -/
def lookup_claus_table2 (table : Table3) (patient_index : ℤ)
    (relative1_index relative2_index : Option ℤ) : Except Unit ℚ := do
  let plane ← pyGetE table patient_index
  let row ←
    match relative1_index with
    | some i => pyGetE plane i
    | none => Except.error ()
  match relative2_index with
  | some j => pyGetE row j
  | none => Except.error ()

/-- The body of `get_lifetime_risk`, abstracted over the row lookup
`fun p => _lookup_claus_table(table, p, relative_indices...)`.  Reads the
lifetime row `-1`, computes `divmod(patient_age - 29, 10)`, reads the
lower-bin row, linearly interpolates toward the next row when the
remainder is non-zero, and returns the rounded conditional risk.
Division by zero (`current_age_risk == 1`) raises. -/
def get_lifetime_risk_core (lookup : ℤ → Except Unit ℚ) (patient_age : ℤ) :
    Except Unit ℚ := do
  let lifetime_risk ← lookup (-1)
  let patient_age_lower_bin_index := Int.fdiv (patient_age - 29) 10
  let patient_age_over_bin := Int.fmod (patient_age - 29) 10
  let current_age_risk ← lookup patient_age_lower_bin_index
  let current_age_risk ←
    if patient_age_over_bin ≠ 0 then do
      let patient_age_upper_bin_risk ← lookup (patient_age_lower_bin_index + 1)
      pure (current_age_risk +
        (patient_age_upper_bin_risk - current_age_risk) *
          (patient_age_over_bin : ℚ) / 10)
    else
      pure current_age_risk
  if (1 : ℚ) - current_age_risk = 0 then Except.error ()
  else pure (pyRound3 ((lifetime_risk - current_age_risk) / (1 - current_age_risk)))

/-- `get_lifetime_risk(table, patient_age, relative1_index)`. -/
def get_lifetime_risk1 (table : Table2) (patient_age : ℤ)
    (relative1_index : Option ℤ) : Except Unit ℚ :=
  get_lifetime_risk_core (fun p => lookup_claus_table1 table p relative1_index)
    patient_age

/-- `get_lifetime_risk(table, patient_age, relative1_index, relative2_index)`. -/
def get_lifetime_risk2 (table : Table3) (patient_age : ℤ)
    (relative1_index relative2_index : Option ℤ) : Except Unit ℚ :=
  get_lifetime_risk_core
    (fun p => lookup_claus_table2 table p relative1_index relative2_index)
    patient_age

/-- The seven tables imported from `claus_tables.py` (external data per the
spec), passed explicitly. -/
structure ClausTables where
  ONE_FIRST_DEG_TABLE : Table2
  ONE_SECOND_DEG_TABLE : Table2
  TWO_FIRST_DEG_TABLE : Table3
  MOTHER_MATERNAL_AUNT : Table3
  MOTHER_PATERNAL_AUNT : Table3
  TWO_SEC_DEG_DIFF_SIDE_TABLE : Table3
  TWO_SEC_DEG_SAME_SIDE_TABLE : Table3

/-- The keyword arguments of `calculate_risk`.  The mother's onset age is
a single integer (the code's supported case), `0` meaning falsy/absent;
each other field is a list of onset ages. -/
structure RelativeHistory where
  mother_onset_age : ℤ
  daughter_onset_ages : List ℤ
  full_sister_onset_ages : List ℤ
  maternal_aunt_onset_ages : List ℤ
  paternal_aunt_onset_ages : List ℤ
  maternal_grandmother_onset_ages : List ℤ
  paternal_grandmother_onset_ages : List ℤ
  maternal_half_sister_onset_ages : List ℤ
  paternal_half_sister_onset_ages : List ℤ

/-- The empty history: every field absent. -/
def emptyHistory : RelativeHistory :=
  ⟨0, [], [], [], [], [], [], [], []⟩

/-- `first_degree_ages`: mother (wrapped in a list when truthy) plus full
sisters plus daughters, falsy entries dropped, then `sort_ages`. -/
def first_degree_ages (h : RelativeHistory) : List ℤ :=
  sort_ages
    ((((if h.mother_onset_age ≠ 0 then [h.mother_onset_age] else []) ++
        h.full_sister_onset_ages ++
        h.daughter_onset_ages).filter is_truthy))

/-- `second_degree_ages`: all aunts, grandmothers and half-sisters. -/
def second_degree_ages (h : RelativeHistory) : List ℤ :=
  sort_ages
    ((h.maternal_aunt_onset_ages ++
      h.paternal_aunt_onset_ages ++
      h.maternal_grandmother_onset_ages ++
      h.paternal_grandmother_onset_ages ++
      h.maternal_half_sister_onset_ages ++
      h.paternal_half_sister_onset_ages).filter is_truthy)

/-- `maternal_second_degree_ages`. -/
def maternal_second_degree_ages (h : RelativeHistory) : List ℤ :=
  sort_ages
    ((h.maternal_aunt_onset_ages ++
      h.maternal_grandmother_onset_ages ++
      h.maternal_half_sister_onset_ages).filter is_truthy)

/-- `paternal_second_degree_ages`. -/
def paternal_second_degree_ages (h : RelativeHistory) : List ℤ :=
  sort_ages
    ((h.paternal_aunt_onset_ages ++
      h.paternal_grandmother_onset_ages ++
      h.paternal_half_sister_onset_ages).filter is_truthy)

/-- One iteration of the first loop ("check for one 1st or 2nd degree
relative"): when `ages` is non-empty, take the maximum of the running
risk and the one-relative table lookup at the youngest age. -/
def checkOne (risk : ℚ) (ages : List ℤ) (table : Table2) (patient_age : ℤ) :
    Except Unit ℚ :=
  match ages with
  | [] => pure risk
  | a :: _ => do
      let v ← get_lifetime_risk1 table patient_age (bin_age_to_index a)
      pure (max risk v)

/-- One iteration of the mother-and-aunt loop: the raw aunt list is passed
through `sort_ages`, and when the result is non-empty the mother-and-aunt
table is consulted at (mother's bin, youngest aunt's bin). -/
def checkMotherAunt (risk : ℚ) (mother_onset_age : ℤ) (aunt_ages : List ℤ)
    (table : Table3) (patient_age : ℤ) : Except Unit ℚ :=
  match sort_ages aunt_ages with
  | [] => pure risk
  | a :: _ => do
      let v ← get_lifetime_risk2 table patient_age
                (bin_age_to_index mother_onset_age) (bin_age_to_index a)
      pure (max risk v)

/-- One iteration of the two-relatives-same-category loop: when the list
has at least two entries, consult the two-relative table at the two
youngest ages. -/
def checkTwoSame (risk : ℚ) (ages : List ℤ) (table : Table3)
    (patient_age : ℤ) : Except Unit ℚ :=
  match ages with
  | a :: b :: _ => do
      let v ← get_lifetime_risk2 table patient_age
                (bin_age_to_index a) (bin_age_to_index b)
      pure (max risk v)
  | _ => pure risk

/-- The two-second-degree-relatives-on-opposite-sides check. -/
def checkDiff (risk : ℚ) (maternal paternal : List ℤ) (table : Table3)
    (patient_age : ℤ) : Except Unit ℚ :=
  match maternal, paternal with
  | a :: _, b :: _ => do
      let v ← get_lifetime_risk2 table patient_age
                (bin_age_to_index a) (bin_age_to_index b)
      pure (max risk v)
  | _, _ => pure risk

/-- The risk-accumulation chain of `calculate_risk`, from `risk = 0`
through every step, over the already-derived category lists (the two
loops over literal pairs/triples in the source are unrolled). -/
def risk_steps (T : ClausTables) (patient_age mother_onset_age : ℤ)
    (first_degree second_degree maternal_second_degree paternal_second_degree
      maternal_aunt paternal_aunt : List ℤ) : Except Unit ℚ := do
  let risk : ℚ := 0
  let risk ← checkOne risk first_degree T.ONE_FIRST_DEG_TABLE patient_age
  let risk ← checkOne risk second_degree T.ONE_SECOND_DEG_TABLE patient_age
  let risk ←
    if mother_onset_age ≠ 0 then do
      let risk ← checkMotherAunt risk mother_onset_age maternal_aunt
                   T.MOTHER_MATERNAL_AUNT patient_age
      checkMotherAunt risk mother_onset_age paternal_aunt
        T.MOTHER_PATERNAL_AUNT patient_age
    else
      pure risk
  let risk ← checkTwoSame risk first_degree T.TWO_FIRST_DEG_TABLE patient_age
  let risk ← checkTwoSame risk maternal_second_degree
               T.TWO_SEC_DEG_SAME_SIDE_TABLE patient_age
  let risk ← checkTwoSame risk paternal_second_degree
               T.TWO_SEC_DEG_SAME_SIDE_TABLE patient_age
  checkDiff risk maternal_second_degree paternal_second_degree
    T.TWO_SEC_DEG_DIFF_SIDE_TABLE patient_age

/-- `calculate_risk(patient_age, ...)`: the (always-false) bounds guard,
the category derivation, the risk-accumulation steps, and the final
`risk if risk > 0 else None`. -/
def calculate_risk (T : ClausTables) (patient_age : ℤ) (h : RelativeHistory) :
    Except Unit (Option ℚ) :=
  if VALID_MAX_AGE < patient_age ∧ patient_age < VALID_MIN_AGE then
    Except.ok none
  else do
    let risk ← risk_steps T patient_age h.mother_onset_age
      (first_degree_ages h) (second_degree_ages h)
      (maternal_second_degree_ages h) (paternal_second_degree_ages h)
      h.maternal_aunt_onset_ages h.paternal_aunt_onset_ages
    pure (if 0 < risk then some risk else none)

instance {ε α : Type} [DecidableEq ε] [DecidableEq α] :
    DecidableEq (Except ε α) := fun a b =>
  match a, b with
  | Except.ok x, Except.ok y =>
      if h : x = y then isTrue (by rw [h])
      else isFalse (fun hc => h (Except.ok.injEq .. ▸ hc))
  | Except.error e, Except.error f =>
      if h : e = f then isTrue (by rw [h])
      else isFalse (fun hc => h (Except.error.injEq .. ▸ hc))
  | Except.ok _, Except.error _ => isFalse (fun hc => Except.noConfusion hc)
  | Except.error _, Except.ok _ => isFalse (fun hc => Except.noConfusion hc)

/-- Build a spec-shaped two-dimensional table: patient rows `0..5` are the
10-year age bins from age 29 and the last row (reached as index `-1`) is
the lifetime row; relative columns `0..5`. -/
def mkTable2 (f : ℕ → ℕ → ℚ) : Table2 :=
  (List.range 7).map (fun p => (List.range 6).map (fun r => f p r))

/-- Build a spec-shaped three-dimensional table (`7 × 6 × 6`). -/
def mkTable3 (f : ℕ → ℕ → ℕ → ℚ) : Table3 :=
  (List.range 7).map (fun p =>
    (List.range 6).map (fun r1 =>
      (List.range 6).map (fun r2 => f p r1 r2)))

/-- Modelled from the spec: the seven tables of `claus_tables.py` are not
part of the analysed sources; the spec only fixes their shape (patient
rows for bins from age 29 plus a lifetime row addressed as `-1`; relative
bin indices `0` through `5`) and that every cell is a probability in
`[0,1]`.  These concrete tables satisfy exactly those constraints and are
used to evaluate the calculator on concrete inputs. -/
def specTables : ClausTables :=
  ⟨mkTable2 (fun p r => (6 * p + r + 1 : ℚ) / 100),
   mkTable2 (fun p r => (6 * p + r + 1 : ℚ) / 100),
   mkTable3 (fun p r1 r2 => (6 * p + r1 + r2 + 1 : ℚ) / 1000),
   mkTable3 (fun p r1 r2 => (12 * p + r1 + 2 * r2 + 3 : ℚ) / 100),
   mkTable3 (fun p r1 r2 => (6 * p + r1 + r2 + 2 : ℚ) / 1000),
   mkTable3 (fun p r1 r2 => (6 * p + r1 + r2 + 3 : ℚ) / 1000),
   mkTable3 (fun p r1 r2 => (6 * p + r1 + r2 + 1 : ℚ) / 1000)⟩

/-- Every cell of a two-dimensional table lies in `[0,1]`. -/
def table2InRange (t : Table2) : Prop :=
  ∀ row ∈ t, ∀ c ∈ row, 0 ≤ c ∧ c ≤ 1

/-- Every cell of a three-dimensional table lies in `[0,1]`. -/
def table3InRange (t : Table3) : Prop :=
  ∀ plane ∈ t, ∀ row ∈ plane, ∀ c ∈ row, 0 ≤ c ∧ c ≤ 1

/-- Every cell of every one of the seven tables lies in `[0,1]` (the
spec's invariant on the external table data). -/
def tablesInRange (T : ClausTables) : Prop :=
  table2InRange T.ONE_FIRST_DEG_TABLE ∧
  table2InRange T.ONE_SECOND_DEG_TABLE ∧
  table3InRange T.TWO_FIRST_DEG_TABLE ∧
  table3InRange T.MOTHER_MATERNAL_AUNT ∧
  table3InRange T.MOTHER_PATERNAL_AUNT ∧
  table3InRange T.TWO_SEC_DEG_DIFF_SIDE_TABLE ∧
  table3InRange T.TWO_SEC_DEG_SAME_SIDE_TABLE

instance (t : Table2) : Decidable (table2InRange t) := by
  unfold table2InRange; infer_instance

instance (t : Table3) : Decidable (table3InRange t) := by
  unfold table3InRange; infer_instance

instance (T : ClausTables) : Decidable (tablesInRange T) := by
  unfold tablesInRange; infer_instance

/-- Invariant of the risk accumulator: still at its initial value `0`, or
equal to some step's candidate — hence at most 1 and stable under
3-decimal rounding (used for claim C8). -/
def RiskInv (r : ℚ) : Prop := r = 0 ∨ (r ≤ 1 ∧ pyRound3 r = r)

/-! ### Candidate lists (claim C3)

`calculate_riskC3spec` follows the spec's words: each applicable step
produces a candidate risk value, the result is the maximum candidate when
one is positive and `None` otherwise. -/

/-- Candidate of one iteration of the single-relative loop. -/
def candOne (ages : List ℤ) (table : Table2) (patient_age : ℤ) :
    Except Unit (List ℚ) :=
  match ages with
  | [] => pure []
  | a :: _ => do
      let v ← get_lifetime_risk1 table patient_age (bin_age_to_index a)
      pure [v]

/-- Candidate of one iteration of the mother-and-aunt loop. -/
def candMotherAunt (mother_onset_age : ℤ) (aunt_ages : List ℤ)
    (table : Table3) (patient_age : ℤ) : Except Unit (List ℚ) :=
  match sort_ages aunt_ages with
  | [] => pure []
  | a :: _ => do
      let v ← get_lifetime_risk2 table patient_age
                (bin_age_to_index mother_onset_age) (bin_age_to_index a)
      pure [v]

/-- Candidate of one iteration of the two-relatives loop. -/
def candTwoSame (ages : List ℤ) (table : Table3) (patient_age : ℤ) :
    Except Unit (List ℚ) :=
  match ages with
  | a :: b :: _ => do
      let v ← get_lifetime_risk2 table patient_age
                (bin_age_to_index a) (bin_age_to_index b)
      pure [v]
  | _ => pure []

/-- Candidate of the opposite-sides check. -/
def candDiff (maternal paternal : List ℤ) (table : Table3)
    (patient_age : ℤ) : Except Unit (List ℚ) :=
  match maternal, paternal with
  | a :: _, b :: _ => do
      let v ← get_lifetime_risk2 table patient_age
                (bin_age_to_index a) (bin_age_to_index b)
      pure [v]
  | _, _ => pure []

/-- The candidate risks of all applicable steps, in step order. -/
def cand_steps (T : ClausTables) (patient_age mother_onset_age : ℤ)
    (first_degree second_degree maternal_second_degree paternal_second_degree
      maternal_aunt paternal_aunt : List ℤ) : Except Unit (List ℚ) := do
  let c1 ← candOne first_degree T.ONE_FIRST_DEG_TABLE patient_age
  let c2 ← candOne second_degree T.ONE_SECOND_DEG_TABLE patient_age
  let c3 ←
    if mother_onset_age ≠ 0 then do
      let a ← candMotherAunt mother_onset_age maternal_aunt
                T.MOTHER_MATERNAL_AUNT patient_age
      let b ← candMotherAunt mother_onset_age paternal_aunt
                T.MOTHER_PATERNAL_AUNT patient_age
      pure (a ++ b)
    else
      pure []
  let c4 ← candTwoSame first_degree T.TWO_FIRST_DEG_TABLE patient_age
  let c5 ← candTwoSame maternal_second_degree
             T.TWO_SEC_DEG_SAME_SIDE_TABLE patient_age
  let c6 ← candTwoSame paternal_second_degree
             T.TWO_SEC_DEG_SAME_SIDE_TABLE patient_age
  let c7 ← candDiff maternal_second_degree paternal_second_degree
             T.TWO_SEC_DEG_DIFF_SIDE_TABLE patient_age
  pure (c1 ++ c2 ++ c3 ++ c4 ++ c5 ++ c6 ++ c7)

/-- The maximum of a candidate list (`none` when there are no candidates). -/
def listMax : List ℚ → Option ℚ
  | [] => none
  | c :: rest => some (rest.foldl max c)

/-- Modelled from the spec's words for claim C3: the result is the maximum
candidate across all applicable steps when some candidate is positive,
otherwise "no result". -/
def calculate_riskC3spec (T : ClausTables) (patient_age : ℤ)
    (h : RelativeHistory) : Except Unit (Option ℚ) := do
  let cs ← cand_steps T patient_age h.mother_onset_age
    (first_degree_ages h) (second_degree_ages h)
    (maternal_second_degree_ages h) (paternal_second_degree_ages h)
    h.maternal_aunt_onset_ages h.paternal_aunt_onset_ages
  pure (match listMax cs with
        | none => none
        | some m => if 0 < m then some m else none)

/-! ### The claim-C4 reading of the mother-and-aunt step -/

/-- Modelled from the spec's words for claim C4: the aunt ages used by the
mother-and-aunt step are "the raw supplied list, sorted ascending" with
no valid-range filter. -/
def checkMotherAuntC4spec (risk : ℚ) (mother_onset_age : ℤ)
    (aunt_ages : List ℤ) (table : Table3) (patient_age : ℤ) :
    Except Unit ℚ :=
  match List.insertionSort (· ≤ ·) aunt_ages with
  | [] => pure risk
  | a :: _ => do
      let v ← get_lifetime_risk2 table patient_age
                (bin_age_to_index mother_onset_age) (bin_age_to_index a)
      pure (max risk v)

/-- `risk_steps` with the claim-C4 reading of the mother-and-aunt step. -/
def risk_stepsC4spec (T : ClausTables) (patient_age mother_onset_age : ℤ)
    (first_degree second_degree maternal_second_degree paternal_second_degree
      maternal_aunt paternal_aunt : List ℤ) : Except Unit ℚ := do
  let risk : ℚ := 0
  let risk ← checkOne risk first_degree T.ONE_FIRST_DEG_TABLE patient_age
  let risk ← checkOne risk second_degree T.ONE_SECOND_DEG_TABLE patient_age
  let risk ←
    if mother_onset_age ≠ 0 then do
      let risk ← checkMotherAuntC4spec risk mother_onset_age maternal_aunt
                   T.MOTHER_MATERNAL_AUNT patient_age
      checkMotherAuntC4spec risk mother_onset_age paternal_aunt
        T.MOTHER_PATERNAL_AUNT patient_age
    else
      pure risk
  let risk ← checkTwoSame risk first_degree T.TWO_FIRST_DEG_TABLE patient_age
  let risk ← checkTwoSame risk maternal_second_degree
               T.TWO_SEC_DEG_SAME_SIDE_TABLE patient_age
  let risk ← checkTwoSame risk paternal_second_degree
               T.TWO_SEC_DEG_SAME_SIDE_TABLE patient_age
  checkDiff risk maternal_second_degree paternal_second_degree
    T.TWO_SEC_DEG_DIFF_SIDE_TABLE patient_age

/-- `calculate_risk` with the claim-C4 reading of the mother-and-aunt
step. -/
def calculate_riskC4spec (T : ClausTables) (patient_age : ℤ)
    (h : RelativeHistory) : Except Unit (Option ℚ) :=
  if VALID_MAX_AGE < patient_age ∧ patient_age < VALID_MIN_AGE then
    Except.ok none
  else do
    let risk ← risk_stepsC4spec T patient_age h.mother_onset_age
      (first_degree_ages h) (second_degree_ages h)
      (maternal_second_degree_ages h) (paternal_second_degree_ages h)
      h.maternal_aunt_onset_ages h.paternal_aunt_onset_ages
    pure (if 0 < risk then some risk else none)

/-! ### Input transformations used by the claims -/

/-- Range-filter every relative-age list of a history (the mother scalar
is untouched), as in claim C7. -/
def filterHistory (h : RelativeHistory) : RelativeHistory where
  mother_onset_age := h.mother_onset_age
  daughter_onset_ages := h.daughter_onset_ages.filter in_valid_range
  full_sister_onset_ages := h.full_sister_onset_ages.filter in_valid_range
  maternal_aunt_onset_ages := h.maternal_aunt_onset_ages.filter in_valid_range
  paternal_aunt_onset_ages := h.paternal_aunt_onset_ages.filter in_valid_range
  maternal_grandmother_onset_ages :=
    h.maternal_grandmother_onset_ages.filter in_valid_range
  paternal_grandmother_onset_ages :=
    h.paternal_grandmother_onset_ages.filter in_valid_range
  maternal_half_sister_onset_ages :=
    h.maternal_half_sister_onset_ages.filter in_valid_range
  paternal_half_sister_onset_ages :=
    h.paternal_half_sister_onset_ages.filter in_valid_range

/-- Replace both aunt lists by their `sort_ages` image (range-filtered and
sorted), as in the amended claim C4. -/
def sortAuntsHistory (h : RelativeHistory) : RelativeHistory where
  mother_onset_age := h.mother_onset_age
  daughter_onset_ages := h.daughter_onset_ages
  full_sister_onset_ages := h.full_sister_onset_ages
  maternal_aunt_onset_ages := sort_ages h.maternal_aunt_onset_ages
  paternal_aunt_onset_ages := sort_ages h.paternal_aunt_onset_ages
  maternal_grandmother_onset_ages := h.maternal_grandmother_onset_ages
  paternal_grandmother_onset_ages := h.paternal_grandmother_onset_ages
  maternal_half_sister_onset_ages := h.maternal_half_sister_onset_ages
  paternal_half_sister_onset_ages := h.paternal_half_sister_onset_ages

/-- The relative categories a new onset age can be added to (claim C5). -/
inductive RelCat where
  | mother
  | daughter
  | fullSister
  | maternalAunt
  | paternalAunt
  | maternalGrandmother
  | paternalGrandmother
  | maternalHalfSister
  | paternalHalfSister
deriving DecidableEq

/-- Add one onset age `a` to a history in category `c`.  For the mother
category the scalar field is set (meaningful when it was `0`); for every
other category `a` is appended to the corresponding list. -/
def addAge (h : RelativeHistory) (c : RelCat) (a : ℤ) : RelativeHistory :=
  match c with
  | RelCat.mother => { h with mother_onset_age := a }
  | RelCat.daughter =>
      { h with daughter_onset_ages := h.daughter_onset_ages ++ [a] }
  | RelCat.fullSister =>
      { h with full_sister_onset_ages := h.full_sister_onset_ages ++ [a] }
  | RelCat.maternalAunt =>
      { h with maternal_aunt_onset_ages := h.maternal_aunt_onset_ages ++ [a] }
  | RelCat.paternalAunt =>
      { h with paternal_aunt_onset_ages := h.paternal_aunt_onset_ages ++ [a] }
  | RelCat.maternalGrandmother =>
      { h with maternal_grandmother_onset_ages :=
          h.maternal_grandmother_onset_ages ++ [a] }
  | RelCat.paternalGrandmother =>
      { h with paternal_grandmother_onset_ages :=
          h.paternal_grandmother_onset_ages ++ [a] }
  | RelCat.maternalHalfSister =>
      { h with maternal_half_sister_onset_ages :=
          h.maternal_half_sister_onset_ages ++ [a] }
  | RelCat.paternalHalfSister =>
      { h with paternal_half_sister_onset_ages :=
          h.paternal_half_sister_onset_ages ++ [a] }

/-- `a` is at least every onset age already supplied in the history. -/
def ageDominates (h : RelativeHistory) (a : ℤ) : Prop :=
  h.mother_onset_age ≤ a ∧
  (∀ x ∈ h.daughter_onset_ages, x ≤ a) ∧
  (∀ x ∈ h.full_sister_onset_ages, x ≤ a) ∧
  (∀ x ∈ h.maternal_aunt_onset_ages, x ≤ a) ∧
  (∀ x ∈ h.paternal_aunt_onset_ages, x ≤ a) ∧
  (∀ x ∈ h.maternal_grandmother_onset_ages, x ≤ a) ∧
  (∀ x ∈ h.paternal_grandmother_onset_ages, x ≤ a) ∧
  (∀ x ∈ h.maternal_half_sister_onset_ages, x ≤ a) ∧
  (∀ x ∈ h.paternal_half_sister_onset_ages, x ≤ a)

instance (h : RelativeHistory) (a : ℤ) : Decidable (ageDominates h a) := by
  unfold ageDominates; infer_instance

/-! ## Helper lemmas -/

theorem okBind {ε α β : Type} (a : α) (f : α → Except ε β) :
    (Except.ok a >>= f : Except ε β) = f a := rfl

theorem errorBind {ε α β : Type} (e : ε) (f : α → Except ε β) :
    (Except.error e >>= f : Except ε β) = Except.error e := rfl

theorem pureEqOk {ε α : Type} (a : α) : (pure a : Except ε α) = Except.ok a := rfl

theorem sort_ages_sorted (l : List ℤ) : List.Sorted (· ≤ ·) (sort_ages l) :=
  List.sorted_insertionSort _ _

theorem sort_ages_perm_filter (l : List ℤ) :
    (sort_ages l).Perm (l.filter in_valid_range) :=
  List.perm_insertionSort _ _

/-- Two age lists with permuted in-range parts have the same `sort_ages`. -/
theorem sort_ages_eq_of_filter_perm {l₁ l₂ : List ℤ}
    (h : (l₁.filter in_valid_range).Perm (l₂.filter in_valid_range)) :
    sort_ages l₁ = sort_ages l₂ :=
  List.eq_of_perm_of_sorted
    ((sort_ages_perm_filter l₁).trans (h.trans (sort_ages_perm_filter l₂).symm))
    (sort_ages_sorted _) (sort_ages_sorted _)

theorem sort_ages_perm {l₁ l₂ : List ℤ} (h : l₁.Perm l₂) :
    sort_ages l₁ = sort_ages l₂ :=
  sort_ages_eq_of_filter_perm (h.filter _)

theorem sort_ages_congr {l₁ l₂ : List ℤ}
    (h : l₁.filter in_valid_range = l₂.filter in_valid_range) :
    sort_ages l₁ = sort_ages l₂ := by
  unfold sort_ages
  rw [h]

theorem filter_range_idem (l : List ℤ) :
    (l.filter in_valid_range).filter in_valid_range = l.filter in_valid_range := by
  rw [List.filter_filter]
  exact List.filter_congr (fun a _ => Bool.and_self _)

/-- Pre-filtering by the valid range does not change `sort_ages`. -/
theorem sort_ages_filter (l : List ℤ) :
    sort_ages (l.filter in_valid_range) = sort_ages l :=
  sort_ages_congr (filter_range_idem l)

/-- `sort_ages` is idempotent. -/
theorem sort_ages_idem (l : List ℤ) :
    sort_ages (sort_ages l) = sort_ages l := by
  apply sort_ages_eq_of_filter_perm
  have p1 : ((sort_ages l).filter in_valid_range).Perm
      ((l.filter in_valid_range).filter in_valid_range) :=
    (sort_ages_perm_filter l).filter _
  rw [filter_range_idem] at p1
  exact p1

/-- Range-filtering before the truthiness filter is absorbed by the final
range filter. -/
theorem filter_ivr_truthy_idem (l : List ℤ) :
    ((l.filter in_valid_range).filter is_truthy).filter in_valid_range =
      (l.filter is_truthy).filter in_valid_range := by
  rw [List.filter_filter, List.filter_filter, List.filter_filter]
  exact List.filter_congr
    (fun a _ => by cases h1 : in_valid_range a <;> cases h2 : is_truthy a <;>
      simp [h1, h2])

/-! ## Congruence of the risk steps

Each step of `calculate_risk` looks only at the first one or two entries of
the relevant (already sorted) list; the lemmas below make that precise. -/

theorem checkOne_congr {ages ages' : List ℤ} (h : ages.take 2 = ages'.take 2)
    (risk : ℚ) (table : Table2) (p : ℤ) :
    checkOne risk ages table p = checkOne risk ages' table p := by
  cases ages with
  | nil =>
      cases ages' with
      | nil => rfl
      | cons b t => exact List.noConfusion h
  | cons a s =>
      cases ages' with
      | nil => exact List.noConfusion h
      | cons b t =>
          have h1 : a = b := congrArg List.headI h
          subst h1
          rfl

theorem checkTwoSame_congr {ages ages' : List ℤ}
    (h : ages.take 2 = ages'.take 2) (risk : ℚ) (table : Table3) (p : ℤ) :
    checkTwoSame risk ages table p = checkTwoSame risk ages' table p := by
  cases ages with
  | nil =>
      cases ages' with
      | nil => rfl
      | cons b t => exact List.noConfusion h
  | cons a s =>
      cases ages' with
      | nil => exact List.noConfusion h
      | cons b t =>
          have h1 : a = b := congrArg List.headI h
          subst h1
          cases s with
          | nil =>
              cases t with
              | nil => rfl
              | cons b2 t2 => exact List.noConfusion (congrArg List.tail h)
          | cons a2 s2 =>
              cases t with
              | nil => exact List.noConfusion (congrArg List.tail h)
              | cons b2 t2 =>
                  have h2 : a2 = b2 := congrArg (fun l : List ℤ => l.tail.headI) h
                  subst h2
                  rfl

theorem checkDiff_congr {m m' p p' : List ℤ}
    (hm : m.take 2 = m'.take 2) (hp : p.take 2 = p'.take 2)
    (risk : ℚ) (table : Table3) (age : ℤ) :
    checkDiff risk m p table age = checkDiff risk m' p' table age := by
  cases m with
  | nil =>
      cases m' with
      | nil =>
          cases p <;> cases p' <;> rfl
      | cons b t => exact List.noConfusion hm
  | cons a s =>
      cases m' with
      | nil => exact List.noConfusion hm
      | cons b t =>
          have h1 : a = b := congrArg List.headI hm
          subst h1
          cases p with
          | nil =>
              cases p' with
              | nil => rfl
              | cons d u => exact List.noConfusion hp
          | cons c v =>
              cases p' with
              | nil => exact List.noConfusion hp
              | cons d u =>
                  have h2 : c = d := congrArg List.headI hp
                  subst h2
                  rfl

theorem checkMotherAunt_congr {ma ma' : List ℤ}
    (h : (sort_ages ma).take 1 = (sort_ages ma').take 1)
    (risk : ℚ) (mother : ℤ) (table : Table3) (p : ℤ) :
    checkMotherAunt risk mother ma table p =
      checkMotherAunt risk mother ma' table p := by
  unfold checkMotherAunt
  cases hma : sort_ages ma with
  | nil =>
      cases hma' : sort_ages ma' with
      | nil => rfl
      | cons b t =>
          rw [hma, hma'] at h
          exact List.noConfusion h
  | cons a s =>
      cases hma' : sort_ages ma' with
      | nil =>
          rw [hma, hma'] at h
          exact List.noConfusion h
      | cons b t =>
          rw [hma, hma'] at h
          have h1 : a = b := congrArg List.headI h
          subst h1
          rfl

/-- The whole risk-accumulation chain is determined by the first two
entries of each derived category list, the first entry of each sorted
aunt list, and the mother's onset age. -/
theorem risk_steps_congr (T : ClausTables) (p m : ℤ)
    {fd fd' sd sd' msd msd' psd psd' ma ma' pa pa' : List ℤ}
    (h1 : fd.take 2 = fd'.take 2) (h2 : sd.take 2 = sd'.take 2)
    (h3 : msd.take 2 = msd'.take 2) (h4 : psd.take 2 = psd'.take 2)
    (h5 : (sort_ages ma).take 1 = (sort_ages ma').take 1)
    (h6 : (sort_ages pa).take 1 = (sort_ages pa').take 1) :
    risk_steps T p m fd sd msd psd ma pa =
      risk_steps T p m fd' sd' msd' psd' ma' pa' := by
  unfold risk_steps
  simp only [checkOne_congr h1, checkOne_congr h2, checkMotherAunt_congr h5,
    checkMotherAunt_congr h6, checkTwoSame_congr h1, checkTwoSame_congr h3,
    checkTwoSame_congr h4, checkDiff_congr h3 h4]

/-- Congruence for `calculate_risk` through the used projections. -/
theorem calculate_risk_congr (T : ClausTables) (p : ℤ)
    {h h' : RelativeHistory}
    (hm : h.mother_onset_age = h'.mother_onset_age)
    (h1 : (first_degree_ages h).take 2 = (first_degree_ages h').take 2)
    (h2 : (second_degree_ages h).take 2 = (second_degree_ages h').take 2)
    (h3 : (maternal_second_degree_ages h).take 2 =
      (maternal_second_degree_ages h').take 2)
    (h4 : (paternal_second_degree_ages h).take 2 =
      (paternal_second_degree_ages h').take 2)
    (h5 : (sort_ages h.maternal_aunt_onset_ages).take 1 =
      (sort_ages h'.maternal_aunt_onset_ages).take 1)
    (h6 : (sort_ages h.paternal_aunt_onset_ages).take 1 =
      (sort_ages h'.paternal_aunt_onset_ages).take 1) :
    calculate_risk T p h = calculate_risk T p h' := by
  unfold calculate_risk
  by_cases hg : VALID_MAX_AGE < p ∧ p < VALID_MIN_AGE
  · rw [if_pos hg, if_pos hg]
  · rw [if_neg hg, if_neg hg, hm, risk_steps_congr T p h'.mother_onset_age
      h1 h2 h3 h4 h5 h6]

/-! ## Claim C1 -/

/-- Claim C1 (code bug).  The patient-age guard in `calculate_risk` reads
`VALID_MAX_AGE < patient_age < VALID_MIN_AGE`, i.e. `79 < patient_age < 20`,
which no integer satisfies, so the guard never fires; at the failing input
`patient_age = 85`, `mother_onset_age = 45` (with the spec-modelled
tables) `calculate_risk` returns the risk `0.038` instead of the
"no result" the spec requires for every out-of-range patient age. -/
theorem claim_C1_out_of_range_patient_age_not_rejected :
    (∀ patient_age : ℤ,
      decide (VALID_MAX_AGE < patient_age ∧ patient_age < VALID_MIN_AGE) = false) ∧
    calculate_risk specTables 85
        { emptyHistory with mother_onset_age := 45 } =
      Except.ok (some (19 / 500)) := by
  constructor
  · intro patient_age
    rw [decide_eq_false_iff_not, VALID_MAX_AGE, VALID_MIN_AGE]
    rintro ⟨h1, h2⟩
    omega
  · with_unfolding_all decide

/-! ## Claim C9 -/

/-- Claim C9.  The mother's onset age is binned without any range check in
the mother-plus-aunt step: age 85 yields relative index 6, outside the
defined range 0..5, and with spec-shaped tables (relative indices 0..5)
the mother-and-aunt lookup goes out of bounds and the whole call raises,
even though the aunt age 45 and every derived-category age was
range-filtered. -/
theorem claim_C9_mother_bin_reaches_out_of_bounds :
    bin_age_to_index 85 = some 6 ∧
    lookup_claus_table2 specTables.MOTHER_MATERNAL_AUNT 1 (some 6) (some 2) =
      Except.error () ∧
    calculate_risk specTables 40
        { emptyHistory with mother_onset_age := 85,
                            maternal_aunt_onset_ages := [45] } =
      Except.error () := by
  refine ⟨by decide, by with_unfolding_all decide, by with_unfolding_all decide⟩

/-! ## Claim C2 -/

/-- Claim C2.  `get_lifetime_risk` (for one or two relative indices, both
of which instantiate the common core over the row lookup) computes
`lifetime_risk` as the cell at the lifetime sentinel row `-1`, computes
`(patient_bin_index, remainder) = divmod(patient_age - 29, 10)`, reads
`current_age_risk` at row `patient_bin_index`, interpolates toward row
`patient_bin_index + 1` with weight `remainder / 10` when the remainder is
non-zero, and returns `round((lifetime_risk - current_age_risk) /
(1 - current_age_risk), 3)`. -/
theorem claim_C2_get_lifetime_risk_formula
    (lookup : ℤ → Except Unit ℚ) (patient_age : ℤ) (L C U : ℚ)
    (hL : lookup (-1) = Except.ok L)
    (hC : lookup (Int.fdiv (patient_age - 29) 10) = Except.ok C)
    (hU : Int.fmod (patient_age - 29) 10 ≠ 0 →
      lookup (Int.fdiv (patient_age - 29) 10 + 1) = Except.ok U)
    (hD : 1 - (if Int.fmod (patient_age - 29) 10 ≠ 0 then
        C + (U - C) * ((Int.fmod (patient_age - 29) 10 : ℤ) : ℚ) / 10
      else C) ≠ 0) :
    (∀ (t : Table2) (age : ℤ) (r1 : Option ℤ),
      get_lifetime_risk1 t age r1 =
        get_lifetime_risk_core (fun p => lookup_claus_table1 t p r1) age) ∧
    (∀ (t : Table3) (age : ℤ) (r1 r2 : Option ℤ),
      get_lifetime_risk2 t age r1 r2 =
        get_lifetime_risk_core (fun p => lookup_claus_table2 t p r1 r2) age) ∧
    get_lifetime_risk_core lookup patient_age =
      Except.ok (pyRound3
        ((L - (if Int.fmod (patient_age - 29) 10 ≠ 0 then
            C + (U - C) * ((Int.fmod (patient_age - 29) 10 : ℤ) : ℚ) / 10
          else C)) /
         (1 - (if Int.fmod (patient_age - 29) 10 ≠ 0 then
            C + (U - C) * ((Int.fmod (patient_age - 29) 10 : ℤ) : ℚ) / 10
          else C)))) := by
  refine ⟨fun _ _ _ => rfl, fun _ _ _ _ => rfl, ?_⟩
  simp only [get_lifetime_risk_core, hL, okBind, hC]
  by_cases hrem : Int.fmod (patient_age - 29) 10 ≠ 0
  · rw [if_pos hrem] at hD ⊢
    rw [if_pos hrem, hU hrem, okBind, pureEqOk, okBind, if_neg hD, pureEqOk]
  · rw [if_neg hrem] at hD ⊢
    rw [if_neg hrem, pureEqOk, okBind, if_neg hD, pureEqOk]

/-- Witness for claim C2: the one-first-degree spec table, patient age 40
and relative index 2 satisfy the hypotheses, and the formula evaluates to
`0.325`. -/
theorem claim_C2_witness :
    (fun p => lookup_claus_table1 specTables.ONE_FIRST_DEG_TABLE p (some 2))
        (-1) = Except.ok (39 / 100) ∧
    get_lifetime_risk_core
        (fun p => lookup_claus_table1 specTables.ONE_FIRST_DEG_TABLE p (some 2))
        40 =
      Except.ok (pyRound3
        ((39 / 100 - (if Int.fmod ((40 : ℤ) - 29) 10 ≠ 0 then
            9 / 100 + (15 / 100 - 9 / 100) *
              ((Int.fmod ((40 : ℤ) - 29) 10 : ℤ) : ℚ) / 10
          else 9 / 100)) /
         (1 - (if Int.fmod ((40 : ℤ) - 29) 10 ≠ 0 then
            9 / 100 + (15 / 100 - 9 / 100) *
              ((Int.fmod ((40 : ℤ) - 29) 10 : ℤ) : ℚ) / 10
          else 9 / 100)))) :=
  ⟨by with_unfolding_all decide,
   (claim_C2_get_lifetime_risk_formula
      (fun p => lookup_claus_table1 specTables.ONE_FIRST_DEG_TABLE p (some 2))
      40 (39 / 100) (9 / 100) (15 / 100)
      (by with_unfolding_all decide) (by with_unfolding_all decide)
      (fun _ => by with_unfolding_all decide) (by with_unfolding_all decide)).2.2⟩

/-! ## Claim C10 -/

/-- Claim C10.  For every patient age in `[20, 28]`,
`divmod(patient_age - 29, 10)` yields lower bin index `-1` — the very row
index used for the lifetime sentinel — with remainder `patient_age - 19`,
so the base `current_age_risk` is read from the lifetime row itself and
then interpolated toward row `0`. -/
theorem claim_C10_below_29_reads_lifetime_row
    (patient_age : ℤ) (lookup : ℤ → Except Unit ℚ)
    (h1 : 20 ≤ patient_age) (h2 : patient_age ≤ 28) :
    Int.fdiv (patient_age - 29) 10 = -1 ∧
    Int.fmod (patient_age - 29) 10 = patient_age - 19 ∧
    get_lifetime_risk_core lookup patient_age = (do
      let L ← lookup (-1)
      let C ← lookup (-1)
      let U ← lookup 0
      let Ci := C + (U - C) * ((patient_age - 19 : ℤ) : ℚ) / 10
      if (1 : ℚ) - Ci = 0 then Except.error ()
      else pure (pyRound3 ((L - Ci) / (1 - Ci)))) := by
  have hdiv : Int.fdiv (patient_age - 29) 10 = -1 := by
    rw [Int.fdiv_eq_ediv _ (by omega)]
    omega
  have hmod : Int.fmod (patient_age - 29) 10 = patient_age - 19 := by
    rw [Int.fmod_eq_emod _ (by omega)]
    omega
  refine ⟨hdiv, hmod, ?_⟩
  have hne : patient_age - 19 ≠ 0 := by omega
  have hplus : (-1 : ℤ) + 1 = 0 := by omega
  simp only [get_lifetime_risk_core, hdiv, hmod, if_pos hne, hplus, pureEqOk,
    okBind]

/-- Witness for claim C10: patient age 25 with the one-first-degree spec
table at relative index 2. -/
theorem claim_C10_witness :
    (20 : ℤ) ≤ 25 ∧ (25 : ℤ) ≤ 28 ∧
    (Int.fdiv ((25 : ℤ) - 29) 10 = -1 ∧
     Int.fmod ((25 : ℤ) - 29) 10 = 25 - 19 ∧
     get_lifetime_risk_core
        (fun p => lookup_claus_table1 specTables.ONE_FIRST_DEG_TABLE p (some 2))
        25 = (do
      let L ← lookup_claus_table1 specTables.ONE_FIRST_DEG_TABLE (-1) (some 2)
      let C ← lookup_claus_table1 specTables.ONE_FIRST_DEG_TABLE (-1) (some 2)
      let U ← lookup_claus_table1 specTables.ONE_FIRST_DEG_TABLE 0 (some 2)
      let Ci := C + (U - C) * (((25 : ℤ) - 19 : ℤ) : ℚ) / 10
      if (1 : ℚ) - Ci = 0 then Except.error ()
      else pure (pyRound3 ((L - Ci) / (1 - Ci))))) :=
  ⟨by decide, by decide,
   claim_C10_below_29_reads_lifetime_row 25
     (fun p => lookup_claus_table1 specTables.ONE_FIRST_DEG_TABLE p (some 2))
     (by decide) (by decide)⟩

/-! ## Derived-list lemmas for input transformations -/

theorem first_degree_ages_filterHistory (h : RelativeHistory) :
    first_degree_ages (filterHistory h) = first_degree_ages h := by
  unfold first_degree_ages filterHistory
  apply sort_ages_congr
  simp only [List.filter_append, filter_ivr_truthy_idem]

theorem second_degree_ages_filterHistory (h : RelativeHistory) :
    second_degree_ages (filterHistory h) = second_degree_ages h := by
  unfold second_degree_ages filterHistory
  apply sort_ages_congr
  simp only [List.filter_append, filter_ivr_truthy_idem]

theorem maternal_second_degree_ages_filterHistory (h : RelativeHistory) :
    maternal_second_degree_ages (filterHistory h) =
      maternal_second_degree_ages h := by
  unfold maternal_second_degree_ages filterHistory
  apply sort_ages_congr
  simp only [List.filter_append, filter_ivr_truthy_idem]

theorem paternal_second_degree_ages_filterHistory (h : RelativeHistory) :
    paternal_second_degree_ages (filterHistory h) =
      paternal_second_degree_ages h := by
  unfold paternal_second_degree_ages filterHistory
  apply sort_ages_congr
  simp only [List.filter_append, filter_ivr_truthy_idem]

/-- Replacing an aunt list by its `sort_ages` image permutes (up to the
final range filter) its contribution to a derived category list. -/
theorem aunt_component_perm (l : List ℤ) :
    ((((sort_ages l).filter is_truthy).filter in_valid_range)).Perm
      ((l.filter is_truthy).filter in_valid_range) := by
  have p2 := ((sort_ages_perm_filter l).filter is_truthy).filter in_valid_range
  rw [filter_ivr_truthy_idem] at p2
  exact p2

theorem second_degree_ages_sortAunts (h : RelativeHistory) :
    second_degree_ages (sortAuntsHistory h) = second_degree_ages h := by
  unfold second_degree_ages sortAuntsHistory
  apply sort_ages_eq_of_filter_perm
  simp only [List.filter_append]
  exact (((((aunt_component_perm h.maternal_aunt_onset_ages).append
    (aunt_component_perm h.paternal_aunt_onset_ages)).append
    (List.Perm.refl _)).append (List.Perm.refl _)).append
    (List.Perm.refl _)).append (List.Perm.refl _)

theorem maternal_second_degree_ages_sortAunts (h : RelativeHistory) :
    maternal_second_degree_ages (sortAuntsHistory h) =
      maternal_second_degree_ages h := by
  unfold maternal_second_degree_ages sortAuntsHistory
  apply sort_ages_eq_of_filter_perm
  simp only [List.filter_append]
  exact (((aunt_component_perm h.maternal_aunt_onset_ages).append
    (List.Perm.refl _)).append (List.Perm.refl _))

theorem paternal_second_degree_ages_sortAunts (h : RelativeHistory) :
    paternal_second_degree_ages (sortAuntsHistory h) =
      paternal_second_degree_ages h := by
  unfold paternal_second_degree_ages sortAuntsHistory
  apply sort_ages_eq_of_filter_perm
  simp only [List.filter_append]
  exact (((aunt_component_perm h.paternal_aunt_onset_ages).append
    (List.Perm.refl _)).append (List.Perm.refl _))

/-! ## Claim C7 -/

/-- Claim C7.  Relative ages outside `[20, 79]` supplied in the
first-degree or second-degree category lists are excluded entirely before
any computation: range-filtering every list beforehand (`filterHistory`)
leaves the result of `calculate_risk` unchanged, for every table set,
patient age and history — in particular an out-of-range age such as 15 or
85 mixed with a valid 45 gives the same result as the valid 45 alone. -/
theorem claim_C7_out_of_range_ages_excluded (T : ClausTables)
    (patient_age : ℤ) (h : RelativeHistory) :
    calculate_risk T patient_age (filterHistory h) =
      calculate_risk T patient_age h :=
  calculate_risk_congr T patient_age rfl
    (congrArg (List.take 2) (first_degree_ages_filterHistory h))
    (congrArg (List.take 2) (second_degree_ages_filterHistory h))
    (congrArg (List.take 2) (maternal_second_degree_ages_filterHistory h))
    (congrArg (List.take 2) (paternal_second_degree_ages_filterHistory h))
    (congrArg (List.take 1) (sort_ages_filter h.maternal_aunt_onset_ages))
    (congrArg (List.take 1) (sort_ages_filter h.paternal_aunt_onset_ages))

/-! ## Claim C6 -/

/-- Claim C6.  Permutation invariance: permuting the ages within any
relative-category list leaves `calculate_risk` unchanged (first
conjunct); and only the youngest and second-youngest entries of each
derived category list (the youngest of each sorted aunt list), together
with the mother's onset age, determine the outcome (second conjunct). -/
theorem claim_C6_permutation_invariance (T : ClausTables) (patient_age : ℤ) :
    (∀ h h' : RelativeHistory,
      h.mother_onset_age = h'.mother_onset_age →
      h.daughter_onset_ages.Perm h'.daughter_onset_ages →
      h.full_sister_onset_ages.Perm h'.full_sister_onset_ages →
      h.maternal_aunt_onset_ages.Perm h'.maternal_aunt_onset_ages →
      h.paternal_aunt_onset_ages.Perm h'.paternal_aunt_onset_ages →
      h.maternal_grandmother_onset_ages.Perm
        h'.maternal_grandmother_onset_ages →
      h.paternal_grandmother_onset_ages.Perm
        h'.paternal_grandmother_onset_ages →
      h.maternal_half_sister_onset_ages.Perm
        h'.maternal_half_sister_onset_ages →
      h.paternal_half_sister_onset_ages.Perm
        h'.paternal_half_sister_onset_ages →
      calculate_risk T patient_age h = calculate_risk T patient_age h') ∧
    (∀ h h' : RelativeHistory,
      h.mother_onset_age = h'.mother_onset_age →
      (first_degree_ages h).take 2 = (first_degree_ages h').take 2 →
      (second_degree_ages h).take 2 = (second_degree_ages h').take 2 →
      (maternal_second_degree_ages h).take 2 =
        (maternal_second_degree_ages h').take 2 →
      (paternal_second_degree_ages h).take 2 =
        (paternal_second_degree_ages h').take 2 →
      (sort_ages h.maternal_aunt_onset_ages).take 1 =
        (sort_ages h'.maternal_aunt_onset_ages).take 1 →
      (sort_ages h.paternal_aunt_onset_ages).take 1 =
        (sort_ages h'.paternal_aunt_onset_ages).take 1 →
      calculate_risk T patient_age h = calculate_risk T patient_age h') := by
  constructor
  · intro h h' hm pDau pSis pMA pPA pMG pPG pMH pPH
    have efd : first_degree_ages h = first_degree_ages h' := by
      unfold first_degree_ages
      apply sort_ages_perm
      apply List.Perm.filter
      rw [hm]
      exact (List.Perm.append (List.Perm.append (List.Perm.refl _) pSis) pDau)
    have esd : second_degree_ages h = second_degree_ages h' := by
      unfold second_degree_ages
      apply sort_ages_perm
      apply List.Perm.filter
      exact ((((pMA.append pPA).append pMG).append pPG).append pMH).append pPH
    have emsd : maternal_second_degree_ages h =
        maternal_second_degree_ages h' := by
      unfold maternal_second_degree_ages
      apply sort_ages_perm
      apply List.Perm.filter
      exact (pMA.append pMG).append pMH
    have epsd : paternal_second_degree_ages h =
        paternal_second_degree_ages h' := by
      unfold paternal_second_degree_ages
      apply sort_ages_perm
      apply List.Perm.filter
      exact (pPA.append pPG).append pPH
    exact calculate_risk_congr T patient_age hm
      (congrArg (List.take 2) efd) (congrArg (List.take 2) esd)
      (congrArg (List.take 2) emsd) (congrArg (List.take 2) epsd)
      (congrArg (List.take 1) (sort_ages_perm pMA))
      (congrArg (List.take 1) (sort_ages_perm pPA))
  · intro h h' hm e1 e2 e3 e4 e5 e6
    exact calculate_risk_congr T patient_age hm e1 e2 e3 e4 e5 e6

/-- Witness for claim C6: reordering the maternal-aunt ages `[45, 25]` to
`[25, 45]` (first conjunct), and replacing a third-youngest aunt age 60 by
70 (second conjunct: only the two youngest matter). -/
theorem claim_C6_witness :
    (calculate_risk specTables 40
        { emptyHistory with maternal_aunt_onset_ages := [45, 25] } =
      calculate_risk specTables 40
        { emptyHistory with maternal_aunt_onset_ages := [25, 45] }) ∧
    (calculate_risk specTables 40
        { emptyHistory with maternal_aunt_onset_ages := [25, 45, 60] } =
      calculate_risk specTables 40
        { emptyHistory with maternal_aunt_onset_ages := [25, 45, 70] }) :=
  ⟨(claim_C6_permutation_invariance specTables 40).1 _ _ rfl
      (List.Perm.refl _) (List.Perm.refl _) (List.Perm.swap 25 45 [])
      (List.Perm.refl _) (List.Perm.refl _) (List.Perm.refl _)
      (List.Perm.refl _) (List.Perm.refl _),
   (claim_C6_permutation_invariance specTables 40).2 _ _ rfl
      (by decide) (by decide) (by decide) (by decide) (by decide) (by decide)⟩

/-! ## Claim C4 -/

/-- Counterexample to claim C4 as stated: with mother onset age 45,
maternal-aunt ages `[15, 45]` and patient age 30, the calculator that uses
the raw aunt list sorted but unfiltered (youngest aunt 15, whose bin index
`-1` hits the last table column) differs from the real calculator, which
range-filters the aunt list through `sort_ages` (youngest valid aunt 45). -/
theorem claim_C4_counterexample :
    calculate_riskC4spec specTables 30
        { emptyHistory with mother_onset_age := 45,
                            maternal_aunt_onset_ages := [15, 45] } ≠
      calculate_risk specTables 30
        { emptyHistory with mother_onset_age := 45,
                            maternal_aunt_onset_ages := [15, 45] } := by
  with_unfolding_all decide

/-- Claim C4, amended.  In the mother-plus-aunt step the aunt ages used
are the supplied list passed through `sort_ages` — range-filtered to
`[20, 79]` and sorted ascending, the same filter as every other category
(the lists merely skip the separate falsy-value pre-filter) — so
replacing the raw aunt lists by their range-filtered sorted versions
leaves the result unchanged. -/
theorem claim_C4_amended_aunts_are_range_filtered (T : ClausTables)
    (patient_age : ℤ) (h : RelativeHistory) :
    calculate_risk T patient_age (sortAuntsHistory h) =
      calculate_risk T patient_age h :=
  calculate_risk_congr T patient_age rfl
    rfl
    (congrArg (List.take 2) (second_degree_ages_sortAunts h))
    (congrArg (List.take 2) (maternal_second_degree_ages_sortAunts h))
    (congrArg (List.take 2) (paternal_second_degree_ages_sortAunts h))
    (congrArg (List.take 1) (sort_ages_idem h.maternal_aunt_onset_ages))
    (congrArg (List.take 1) (sort_ages_idem h.paternal_aunt_onset_ages))

/-! ## Claim C3: the accumulated risk is the maximum of the candidates -/

theorem checkOne_eq_cand (risk : ℚ) (ages : List ℤ) (table : Table2)
    (p : ℤ) :
    checkOne risk ages table p =
      candOne ages table p >>= fun c => pure (c.foldl max risk) := by
  cases ages with
  | nil => rfl
  | cons a s =>
      cases hg : get_lifetime_risk1 table p (bin_age_to_index a) with
      | error e => simp only [checkOne, candOne, hg, errorBind]
      | ok v => simp only [checkOne, candOne, hg, okBind, pureEqOk]; rfl

theorem checkMotherAunt_eq_cand (risk : ℚ) (m : ℤ) (aunt_ages : List ℤ)
    (table : Table3) (p : ℤ) :
    checkMotherAunt risk m aunt_ages table p =
      candMotherAunt m aunt_ages table p >>= fun c => pure (c.foldl max risk) := by
  unfold checkMotherAunt candMotherAunt
  cases hma : sort_ages aunt_ages with
  | nil => rfl
  | cons a s =>
      cases hg : get_lifetime_risk2 table p (bin_age_to_index m)
          (bin_age_to_index a) with
      | error e => simp only [hg, errorBind]
      | ok v => simp only [hg, okBind, pureEqOk]; rfl

theorem checkTwoSame_eq_cand (risk : ℚ) (ages : List ℤ) (table : Table3)
    (p : ℤ) :
    checkTwoSame risk ages table p =
      candTwoSame ages table p >>= fun c => pure (c.foldl max risk) := by
  match ages with
  | [] => rfl
  | [a] => rfl
  | a :: b :: s =>
      cases hg : get_lifetime_risk2 table p (bin_age_to_index a)
          (bin_age_to_index b) with
      | error e => simp only [checkTwoSame, candTwoSame, hg, errorBind]
      | ok v => simp only [checkTwoSame, candTwoSame, hg, okBind, pureEqOk]; rfl

theorem checkDiff_eq_cand (risk : ℚ) (m p : List ℤ) (table : Table3)
    (age : ℤ) :
    checkDiff risk m p table age =
      candDiff m p table age >>= fun c => pure (c.foldl max risk) := by
  match m, p with
  | [], [] => rfl
  | [], b :: t => rfl
  | a :: s, [] => rfl
  | a :: s, b :: t =>
      cases hg : get_lifetime_risk2 table age (bin_age_to_index a)
          (bin_age_to_index b) with
      | error e => simp only [checkDiff, candDiff, hg, errorBind]
      | ok v => simp only [checkDiff, candDiff, hg, okBind, pureEqOk]; rfl

/-- The sequential max-accumulation of `risk_steps` equals folding `max`
over the collected candidate list. -/
theorem risk_steps_eq_cand (T : ClausTables) (p m : ℤ)
    (fd sd msd psd ma pa : List ℤ) :
    risk_steps T p m fd sd msd psd ma pa =
      cand_steps T p m fd sd msd psd ma pa >>=
        fun cs => pure (cs.foldl max 0) := by
  unfold risk_steps cand_steps
  simp only [checkOne_eq_cand, checkMotherAunt_eq_cand, checkTwoSame_eq_cand,
    checkDiff_eq_cand]
  cases h1 : candOne fd T.ONE_FIRST_DEG_TABLE p with
  | error e => simp only [errorBind]
  | ok c1 =>
  simp only [okBind, pureEqOk]
  cases h2 : candOne sd T.ONE_SECOND_DEG_TABLE p with
  | error e => simp only [errorBind]
  | ok c2 =>
  simp only [okBind, pureEqOk]
  by_cases hm0 : m ≠ 0
  · simp only [if_pos hm0]
    cases h3 : candMotherAunt m ma T.MOTHER_MATERNAL_AUNT p with
    | error e => simp only [errorBind]
    | ok ca =>
    simp only [okBind, pureEqOk]
    cases h4 : candMotherAunt m pa T.MOTHER_PATERNAL_AUNT p with
    | error e => simp only [errorBind]
    | ok cb =>
    simp only [okBind, pureEqOk]
    cases h5 : candTwoSame fd T.TWO_FIRST_DEG_TABLE p with
    | error e => simp only [errorBind]
    | ok c4 =>
    simp only [okBind, pureEqOk]
    cases h6 : candTwoSame msd T.TWO_SEC_DEG_SAME_SIDE_TABLE p with
    | error e => simp only [errorBind]
    | ok c5 =>
    simp only [okBind, pureEqOk]
    cases h7 : candTwoSame psd T.TWO_SEC_DEG_SAME_SIDE_TABLE p with
    | error e => simp only [errorBind]
    | ok c6 =>
    simp only [okBind, pureEqOk]
    cases h8 : candDiff msd psd T.TWO_SEC_DEG_DIFF_SIDE_TABLE p with
    | error e => simp only [errorBind]
    | ok c7 =>
    simp only [okBind, pureEqOk, List.foldl_append, List.foldl_nil]
  · simp only [if_neg hm0, okBind, pureEqOk]
    cases h5 : candTwoSame fd T.TWO_FIRST_DEG_TABLE p with
    | error e => simp only [errorBind]
    | ok c4 =>
    simp only [okBind, pureEqOk]
    cases h6 : candTwoSame msd T.TWO_SEC_DEG_SAME_SIDE_TABLE p with
    | error e => simp only [errorBind]
    | ok c5 =>
    simp only [okBind, pureEqOk]
    cases h7 : candTwoSame psd T.TWO_SEC_DEG_SAME_SIDE_TABLE p with
    | error e => simp only [errorBind]
    | ok c6 =>
    simp only [okBind, pureEqOk]
    cases h8 : candDiff msd psd T.TWO_SEC_DEG_DIFF_SIDE_TABLE p with
    | error e => simp only [errorBind]
    | ok c7 =>
    simp only [okBind, pureEqOk, List.foldl_append, List.foldl_nil,
      List.append_nil]

theorem foldl_max_shift (l : List ℚ) (a b : ℚ) :
    l.foldl max (max a b) = max a (l.foldl max b) := by
  induction l generalizing b with
  | nil => rfl
  | cons x t ih =>
      show t.foldl max (max (max a b) x) = max a (t.foldl max (max b x))
      rw [max_assoc, ih]

/-- `risk if risk > 0 else None` over the max-fold agrees with the spec's
"maximum candidate when some candidate is positive". -/
theorem if_fold_eq_listMax (cs : List ℚ) :
    (if 0 < cs.foldl max 0 then some (cs.foldl max 0) else none) =
      (match listMax cs with
       | none => none
       | some m => if 0 < m then some m else none) := by
  cases cs with
  | nil => simp [listMax]
  | cons c t =>
      show (if 0 < t.foldl max (max 0 c) then some (t.foldl max (max 0 c))
            else none) = _
      rw [foldl_max_shift]
      simp only [listMax]
      by_cases hpos : 0 < t.foldl max c
      · rw [if_pos (lt_of_lt_of_le hpos (le_max_right 0 _)),
          max_eq_right (le_of_lt hpos), if_pos hpos]
      · rw [max_eq_left (not_lt.mp hpos), if_neg (lt_irrefl 0), if_neg hpos]

/-- Claim C3.  For every table set and input, the value `calculate_risk`
returns is the maximum of the candidate risks produced by all applicable
steps (single first-degree, single second-degree, mother plus maternal or
paternal aunt, two same-category-same-side, two second-degree opposite
sides); when no step produced a positive candidate the result is
"no result" — i.e. `calculate_risk` agrees with the candidate-maximum
formulation `calculate_riskC3spec` everywhere. -/
theorem claim_C3_result_is_max_of_candidates (T : ClausTables)
    (patient_age : ℤ) (h : RelativeHistory) :
    calculate_risk T patient_age h = calculate_riskC3spec T patient_age h := by
  unfold calculate_risk calculate_riskC3spec
  have hg : ¬(VALID_MAX_AGE < patient_age ∧ patient_age < VALID_MIN_AGE) := by
    simp only [VALID_MAX_AGE, VALID_MIN_AGE]
    rintro ⟨hg1, hg2⟩
    omega
  rw [if_neg hg, risk_steps_eq_cand]
  cases hcs : cand_steps T patient_age h.mother_onset_age
      (first_degree_ages h) (second_degree_ages h)
      (maternal_second_degree_ages h) (paternal_second_degree_ages h)
      h.maternal_aunt_onset_ages h.paternal_aunt_onset_ages with
  | error e => simp only [errorBind]
  | ok cs =>
      simp only [okBind, pureEqOk]
      exact congrArg Except.ok (if_fold_eq_listMax cs)

/-! ## Claim C8: range and rounding of a returned risk -/

theorem qfloor_eq_floor (x : ℚ) : qfloor x = ⌊x⌋ := Rat.floor_def.symm

theorem roundHalfEven_le {x : ℚ} {n : ℤ} (h : x ≤ (n : ℚ)) :
    roundHalfEven x ≤ n := by
  simp only [roundHalfEven, qfloor_eq_floor]
  have h1 : (⌊x⌋ : ℚ) ≤ x := Int.floor_le x
  split_ifs with hr1 hr2 hpar
  · exact_mod_cast le_trans h1 h
  · have hx : (⌊x⌋ : ℚ) + 1/2 ≤ x := by linarith [not_lt.mp hr1]
    have hq : (⌊x⌋ : ℚ) < (n : ℚ) := by linarith
    have hlt : ⌊x⌋ < n := by exact_mod_cast hq
    omega
  · exact_mod_cast le_trans h1 h
  · have hx : (⌊x⌋ : ℚ) + 1/2 ≤ x := by linarith [not_lt.mp hr1]
    have hq : (⌊x⌋ : ℚ) < (n : ℚ) := by linarith
    have hlt : ⌊x⌋ < n := by exact_mod_cast hq
    omega

theorem roundHalfEven_intCast (n : ℤ) : roundHalfEven (n : ℚ) = n := by
  simp only [roundHalfEven, qfloor_eq_floor, Int.floor_intCast, sub_self]
  rw [if_pos (by norm_num : (0:ℚ) < 1/2)]

theorem pyRound3_le_one {x : ℚ} (h : x ≤ 1) : pyRound3 x ≤ 1 := by
  unfold pyRound3
  rw [div_le_one (by norm_num : (0:ℚ) < 1000)]
  have hx : x * 1000 ≤ ((1000 : ℤ) : ℚ) := by push_cast; linarith
  exact_mod_cast roundHalfEven_le hx

theorem pyRound3_idem (x : ℚ) : pyRound3 (pyRound3 x) = pyRound3 x := by
  unfold pyRound3
  rw [div_mul_cancel₀ _ (by norm_num : (1000:ℚ) ≠ 0), roundHalfEven_intCast]

theorem pyGet_mem {α : Type} {l : List α} {i : ℤ} {x : α}
    (h : pyGet l i = some x) : x ∈ l := by
  simp only [pyGet] at h
  split_ifs at h <;> exact List.get?_mem h

theorem pyGetE_mem {α : Type} {l : List α} {i : ℤ} {x : α}
    (h : pyGetE l i = Except.ok x) : x ∈ l := by
  unfold pyGetE at h
  cases hg : pyGet l i with
  | none => rw [hg] at h; exact Except.noConfusion h
  | some y =>
      rw [hg] at h
      have : y = x := Except.ok.inj h
      subst this
      exact pyGet_mem hg

theorem lookup_claus_table1_mem {t : Table2} {p : ℤ} {r1 : Option ℤ} {c : ℚ}
    (hT : table2InRange t) (h : lookup_claus_table1 t p r1 = Except.ok c) :
    0 ≤ c ∧ c ≤ 1 := by
  unfold lookup_claus_table1 at h
  cases hrow : pyGetE t p with
  | error e => rw [hrow, errorBind] at h; exact Except.noConfusion h
  | ok row =>
      rw [hrow, okBind] at h
      cases r1 with
      | none => exact Except.noConfusion h
      | some i => exact hT row (pyGetE_mem hrow) c (pyGetE_mem h)

theorem lookup_claus_table2_mem {t : Table3} {p : ℤ} {r1 r2 : Option ℤ}
    {c : ℚ} (hT : table3InRange t)
    (h : lookup_claus_table2 t p r1 r2 = Except.ok c) : 0 ≤ c ∧ c ≤ 1 := by
  unfold lookup_claus_table2 at h
  cases hplane : pyGetE t p with
  | error e => rw [hplane, errorBind] at h; exact Except.noConfusion h
  | ok plane =>
      rw [hplane, okBind] at h
      cases r1 with
      | none =>
          simp only [errorBind] at h
          exact Except.noConfusion h
      | some i =>
          cases hrow : pyGetE plane i with
          | error e =>
              simp only [hrow, errorBind] at h
              exact Except.noConfusion h
          | ok row =>
              simp only [hrow, okBind] at h
              cases r2 with
              | none => exact Except.noConfusion h
              | some j =>
                  exact hT plane (pyGetE_mem hplane) row (pyGetE_mem hrow)
                    c (pyGetE_mem h)

/-- If every row lookup yields a probability in `[0,1]`, a successful
`get_lifetime_risk` result is at most 1 and stable under 3-decimal
rounding. -/
theorem get_lifetime_risk_core_bounds
    {lookup : ℤ → Except Unit ℚ} {p : ℤ} {v : ℚ}
    (hlk : ∀ i c, lookup i = Except.ok c → 0 ≤ c ∧ c ≤ 1)
    (hok : get_lifetime_risk_core lookup p = Except.ok v) :
    v ≤ 1 ∧ pyRound3 v = v := by
  unfold get_lifetime_risk_core at hok
  cases hL : lookup (-1) with
  | error e => rw [hL, errorBind] at hok; exact Except.noConfusion hok
  | ok L =>
  simp only [hL, okBind] at hok
  cases hC : lookup (Int.fdiv (p - 29) 10) with
  | error e => simp only [hC, errorBind] at hok; exact Except.noConfusion hok
  | ok C =>
  simp only [hC, okBind] at hok
  have hLb := hlk _ _ hL
  have hCb := hlk _ _ hC
  by_cases hrem : Int.fmod (p - 29) 10 ≠ 0
  · rw [if_pos hrem] at hok
    cases hU : lookup (Int.fdiv (p - 29) 10 + 1) with
    | error e => simp only [hU, errorBind] at hok; exact Except.noConfusion hok
    | ok U =>
    simp only [hU, okBind, pureEqOk] at hok
    have hUb := hlk _ _ hU
    have hrem0 : (0:ℚ) ≤ ((Int.fmod (p - 29) 10 : ℤ) : ℚ) := by
      have h0 : (0:ℤ) ≤ Int.fmod (p - 29) 10 := by
        rw [Int.fmod_eq_emod _ (by norm_num)]
        exact Int.emod_nonneg _ (by norm_num)
      exact_mod_cast h0
    have hrem10 : ((Int.fmod (p - 29) 10 : ℤ) : ℚ) ≤ 10 := by
      have h10 : Int.fmod (p - 29) 10 < 10 := by
        rw [Int.fmod_eq_emod _ (by norm_num)]
        exact Int.emod_lt_of_pos _ (by norm_num)
      exact_mod_cast le_of_lt h10
    set Cp := C + (U - C) * ((Int.fmod (p - 29) 10 : ℤ) : ℚ) / 10 with hCp
    by_cases hz : (1:ℚ) - Cp = 0
    · rw [if_pos hz] at hok; exact Except.noConfusion hok
    · rw [if_neg hz] at hok
      have hv : v = pyRound3 ((L - Cp) / (1 - Cp)) := (Except.ok.inj hok).symm
      have hCp1 : Cp ≤ 1 := by
        rw [hCp]
        nlinarith [hCb.1, hCb.2, hUb.1, hUb.2, hrem0, hrem10]
      have hpos : 0 < 1 - Cp := lt_of_le_of_ne (by linarith) (Ne.symm hz)
      have hval : (L - Cp) / (1 - Cp) ≤ 1 := by
        rw [div_le_one hpos]
        linarith [hLb.2]
      exact ⟨hv ▸ pyRound3_le_one hval, hv ▸ pyRound3_idem _⟩
  · rw [if_neg hrem] at hok
    simp only [pureEqOk, okBind] at hok
    by_cases hz : (1:ℚ) - C = 0
    · rw [if_pos hz] at hok; exact Except.noConfusion hok
    · rw [if_neg hz] at hok
      have hv : v = pyRound3 ((L - C) / (1 - C)) := (Except.ok.inj hok).symm
      have hpos : 0 < 1 - C := lt_of_le_of_ne (by linarith [hCb.2]) (Ne.symm hz)
      have hval : (L - C) / (1 - C) ≤ 1 := by
        rw [div_le_one hpos]
        linarith [hLb.2]
      exact ⟨hv ▸ pyRound3_le_one hval, hv ▸ pyRound3_idem _⟩

theorem get_lifetime_risk1_bounds {t : Table2} {p : ℤ} {r1 : Option ℤ}
    {v : ℚ} (hT : table2InRange t)
    (hok : get_lifetime_risk1 t p r1 = Except.ok v) :
    v ≤ 1 ∧ pyRound3 v = v :=
  get_lifetime_risk_core_bounds
    (fun _ _ hc => lookup_claus_table1_mem hT hc) hok

theorem get_lifetime_risk2_bounds {t : Table3} {p : ℤ} {r1 r2 : Option ℤ}
    {v : ℚ} (hT : table3InRange t)
    (hok : get_lifetime_risk2 t p r1 r2 = Except.ok v) :
    v ≤ 1 ∧ pyRound3 v = v :=
  get_lifetime_risk_core_bounds
    (fun _ _ hc => lookup_claus_table2_mem hT hc) hok

theorem RiskInv_max {r v : ℚ} (hr : RiskInv r)
    (hv : v ≤ 1 ∧ pyRound3 v = v) : RiskInv (max r v) := by
  rcases max_choice r v with hc | hc <;> rw [hc]
  · exact hr
  · exact Or.inr hv

theorem checkOne_cons (r : ℚ) (a : ℤ) (s : List ℤ) (t : Table2) (p : ℤ) :
    checkOne r (a :: s) t p =
      get_lifetime_risk1 t p (bin_age_to_index a) >>=
        fun v => pure (max r v) := rfl

theorem checkMotherAunt_sorted {ma : List ℤ} {a : ℤ} {s : List ℤ}
    (hma : sort_ages ma = a :: s) (r : ℚ) (m : ℤ) (t : Table3) (p : ℤ) :
    checkMotherAunt r m ma t p =
      get_lifetime_risk2 t p (bin_age_to_index m) (bin_age_to_index a) >>=
        fun v => pure (max r v) := by
  unfold checkMotherAunt
  rw [hma]

theorem checkMotherAunt_sorted_nil {ma : List ℤ} (hma : sort_ages ma = [])
    (r : ℚ) (m : ℤ) (t : Table3) (p : ℤ) :
    checkMotherAunt r m ma t p = pure r := by
  unfold checkMotherAunt
  rw [hma]

theorem checkTwoSame_cons2 (r : ℚ) (a b : ℤ) (s : List ℤ) (t : Table3)
    (p : ℤ) :
    checkTwoSame r (a :: b :: s) t p =
      get_lifetime_risk2 t p (bin_age_to_index a) (bin_age_to_index b) >>=
        fun v => pure (max r v) := rfl

theorem checkDiff_cons2 (r : ℚ) (a : ℤ) (s : List ℤ) (b : ℤ) (u : List ℤ)
    (t : Table3) (age : ℤ) :
    checkDiff r (a :: s) (b :: u) t age =
      get_lifetime_risk2 t age (bin_age_to_index a) (bin_age_to_index b) >>=
        fun v => pure (max r v) := rfl

theorem checkOne_inv {r r' : ℚ} {ages : List ℤ} {t : Table2} {p : ℤ}
    (hT : table2InRange t) (hr : RiskInv r)
    (hok : checkOne r ages t p = Except.ok r') : RiskInv r' := by
  cases ages with
  | nil => rw [(Except.ok.inj hok).symm]; exact hr
  | cons a s =>
      rw [checkOne_cons] at hok
      cases hg : get_lifetime_risk1 t p (bin_age_to_index a) with
      | error e => rw [hg, errorBind] at hok; exact Except.noConfusion hok
      | ok v =>
          rw [hg, okBind] at hok
          rw [(Except.ok.inj hok).symm]
          exact RiskInv_max hr (get_lifetime_risk1_bounds hT hg)

theorem checkMotherAunt_inv {r r' : ℚ} {m : ℤ} {ma : List ℤ} {t : Table3}
    {p : ℤ} (hT : table3InRange t) (hr : RiskInv r)
    (hok : checkMotherAunt r m ma t p = Except.ok r') : RiskInv r' := by
  cases hma : sort_ages ma with
  | nil =>
      rw [checkMotherAunt_sorted_nil hma] at hok
      rw [(Except.ok.inj hok).symm]
      exact hr
  | cons a s =>
      rw [checkMotherAunt_sorted hma] at hok
      cases hg : get_lifetime_risk2 t p (bin_age_to_index m)
          (bin_age_to_index a) with
      | error e => rw [hg, errorBind] at hok; exact Except.noConfusion hok
      | ok v =>
          rw [hg, okBind] at hok
          rw [(Except.ok.inj hok).symm]
          exact RiskInv_max hr (get_lifetime_risk2_bounds hT hg)

theorem checkTwoSame_inv {r r' : ℚ} {ages : List ℤ} {t : Table3} {p : ℤ}
    (hT : table3InRange t) (hr : RiskInv r)
    (hok : checkTwoSame r ages t p = Except.ok r') : RiskInv r' := by
  match ages with
  | [] => rw [(Except.ok.inj hok).symm]; exact hr
  | [a] => rw [(Except.ok.inj hok).symm]; exact hr
  | a :: b :: s =>
      rw [checkTwoSame_cons2] at hok
      cases hg : get_lifetime_risk2 t p (bin_age_to_index a)
          (bin_age_to_index b) with
      | error e => rw [hg, errorBind] at hok; exact Except.noConfusion hok
      | ok v =>
          rw [hg, okBind] at hok
          rw [(Except.ok.inj hok).symm]
          exact RiskInv_max hr (get_lifetime_risk2_bounds hT hg)

theorem checkDiff_inv {r r' : ℚ} {m p : List ℤ} {t : Table3} {age : ℤ}
    (hT : table3InRange t) (hr : RiskInv r)
    (hok : checkDiff r m p t age = Except.ok r') : RiskInv r' := by
  match m, p with
  | [], [] => rw [(Except.ok.inj hok).symm]; exact hr
  | [], b :: u => rw [(Except.ok.inj hok).symm]; exact hr
  | a :: s, [] => rw [(Except.ok.inj hok).symm]; exact hr
  | a :: s, b :: u =>
      rw [checkDiff_cons2] at hok
      cases hg : get_lifetime_risk2 t age (bin_age_to_index a)
          (bin_age_to_index b) with
      | error e => rw [hg, errorBind] at hok; exact Except.noConfusion hok
      | ok v =>
          rw [hg, okBind] at hok
          rw [(Except.ok.inj hok).symm]
          exact RiskInv_max hr (get_lifetime_risk2_bounds hT hg)

theorem risk_steps_inv {T : ClausTables} {p m : ℤ}
    {fd sd msd psd ma pa : List ℤ} {risk : ℚ} (hT : tablesInRange T)
    (hok : risk_steps T p m fd sd msd psd ma pa = Except.ok risk) :
    RiskInv risk := by
  obtain ⟨hT1, hT2, hT3, hT4, hT5, hT6, hT7⟩ := hT
  unfold risk_steps at hok
  simp only [] at hok
  cases hs1 : checkOne 0 fd T.ONE_FIRST_DEG_TABLE p with
  | error e =>
      simp only [hs1, errorBind] at hok
      exact Except.noConfusion hok
  | ok r1 =>
  simp only [hs1, okBind] at hok
  have hi1 : RiskInv r1 := checkOne_inv hT1 (Or.inl rfl) hs1
  cases hs2 : checkOne r1 sd T.ONE_SECOND_DEG_TABLE p with
  | error e =>
      simp only [hs2, errorBind] at hok
      exact Except.noConfusion hok
  | ok r2 =>
  simp only [hs2, okBind] at hok
  have hi2 : RiskInv r2 := checkOne_inv hT2 hi1 hs2
  by_cases hm0 : m ≠ 0
  · rw [if_pos hm0] at hok
    cases hs3 : checkMotherAunt r2 m ma T.MOTHER_MATERNAL_AUNT p with
    | error e =>
        simp only [hs3, errorBind] at hok
        exact Except.noConfusion hok
    | ok r3 =>
    simp only [hs3, okBind] at hok
    have hi3 : RiskInv r3 := checkMotherAunt_inv hT4 hi2 hs3
    cases hs4 : checkMotherAunt r3 m pa T.MOTHER_PATERNAL_AUNT p with
    | error e =>
        simp only [hs4, errorBind] at hok
        exact Except.noConfusion hok
    | ok r4 =>
    simp only [hs4, okBind] at hok
    have hi4 : RiskInv r4 := checkMotherAunt_inv hT5 hi3 hs4
    cases hs5 : checkTwoSame r4 fd T.TWO_FIRST_DEG_TABLE p with
    | error e =>
        simp only [hs5, errorBind] at hok
        exact Except.noConfusion hok
    | ok r5 =>
    simp only [hs5, okBind] at hok
    have hi5 : RiskInv r5 := checkTwoSame_inv hT3 hi4 hs5
    cases hs6 : checkTwoSame r5 msd T.TWO_SEC_DEG_SAME_SIDE_TABLE p with
    | error e =>
        simp only [hs6, errorBind] at hok
        exact Except.noConfusion hok
    | ok r6 =>
    simp only [hs6, okBind] at hok
    have hi6 : RiskInv r6 := checkTwoSame_inv hT7 hi5 hs6
    cases hs7 : checkTwoSame r6 psd T.TWO_SEC_DEG_SAME_SIDE_TABLE p with
    | error e =>
        simp only [hs7, errorBind] at hok
        exact Except.noConfusion hok
    | ok r7 =>
    simp only [hs7, okBind] at hok
    have hi7 : RiskInv r7 := checkTwoSame_inv hT7 hi6 hs7
    have hi8 : RiskInv risk := checkDiff_inv hT6 hi7 hok
    exact hi8
  · rw [if_neg hm0, pureEqOk, okBind] at hok
    cases hs5 : checkTwoSame r2 fd T.TWO_FIRST_DEG_TABLE p with
    | error e =>
        simp only [hs5, errorBind] at hok
        exact Except.noConfusion hok
    | ok r5 =>
    simp only [hs5, okBind] at hok
    have hi5 : RiskInv r5 := checkTwoSame_inv hT3 hi2 hs5
    cases hs6 : checkTwoSame r5 msd T.TWO_SEC_DEG_SAME_SIDE_TABLE p with
    | error e =>
        simp only [hs6, errorBind] at hok
        exact Except.noConfusion hok
    | ok r6 =>
    simp only [hs6, okBind] at hok
    have hi6 : RiskInv r6 := checkTwoSame_inv hT7 hi5 hs6
    cases hs7 : checkTwoSame r6 psd T.TWO_SEC_DEG_SAME_SIDE_TABLE p with
    | error e =>
        simp only [hs7, errorBind] at hok
        exact Except.noConfusion hok
    | ok r7 =>
    simp only [hs7, okBind] at hok
    have hi7 : RiskInv r7 := checkTwoSame_inv hT7 hi6 hs7
    exact checkDiff_inv hT6 hi7 hok

/-- Claim C8.  Whenever every cell of the tables is a probability in
`[0,1]` (which also forces every interpolated `current_age_risk` of a
successful call to be strictly below 1 — equality would raise a
division-by-zero) and `calculate_risk` returns a risk `r` rather than
"no result", that risk lies in `(0, 1]` and equals its own rounding to 3
decimal places. -/
theorem claim_C8_returned_risk_in_unit_interval (T : ClausTables)
    (patient_age : ℤ) (h : RelativeHistory) (r : ℚ)
    (hT : tablesInRange T)
    (hok : calculate_risk T patient_age h = Except.ok (some r)) :
    0 < r ∧ r ≤ 1 ∧ pyRound3 r = r := by
  unfold calculate_risk at hok
  have hg : ¬(VALID_MAX_AGE < patient_age ∧ patient_age < VALID_MIN_AGE) := by
    simp only [VALID_MAX_AGE, VALID_MIN_AGE]
    rintro ⟨hg1, hg2⟩
    omega
  rw [if_neg hg] at hok
  cases hrisk : risk_steps T patient_age h.mother_onset_age
      (first_degree_ages h) (second_degree_ages h)
      (maternal_second_degree_ages h) (paternal_second_degree_ages h)
      h.maternal_aunt_onset_ages h.paternal_aunt_onset_ages with
  | error e =>
      simp only [hrisk, errorBind] at hok
      exact Except.noConfusion hok
  | ok risk =>
      simp only [hrisk, okBind, pureEqOk] at hok
      by_cases hpos : 0 < risk
      · rw [if_pos hpos] at hok
        have hrr : risk = r := Option.some.inj (Except.ok.inj hok)
        subst hrr
        rcases risk_steps_inv hT hrisk with h0 | hb
        · exact absurd h0 (ne_of_gt hpos)
        · exact ⟨hpos, hb.1, hb.2⟩
      · rw [if_neg hpos] at hok
        exact Option.noConfusion (Except.ok.inj hok)

/-- Witness for claim C8: the spec-modelled tables have all cells in
`[0,1]`, and at patient age 40 with mother onset 45 and a maternal aunt
at 45 the calculator returns `0.756`, which is positive, at most 1, and
rounding-stable. -/
theorem claim_C8_witness :
    tablesInRange specTables ∧
    (0 < (189 : ℚ)/250 ∧ (189 : ℚ)/250 ≤ 1 ∧
      pyRound3 ((189 : ℚ)/250) = (189 : ℚ)/250) :=
  ⟨by with_unfolding_all decide,
   claim_C8_returned_risk_in_unit_interval specTables 40
     { emptyHistory with mother_onset_age := 45,
                         maternal_aunt_onset_ages := [45] }
     ((189 : ℚ)/250)
     (by with_unfolding_all decide)
     (by with_unfolding_all decide)⟩

/-! ## Claim C5: monotonicity when adding a dominating relative age

Each step lemma: if the new list is the old list, or the old list with a
new age appended at the end, then (when both runs succeed) the new
accumulated risk is at least the old one — every previously computed
candidate is computed again with the same arguments, and at most new
candidates join the maximum. -/

theorem checkOne_ge {r v : ℚ} {l : List ℤ} {t : Table2} {p : ℤ}
    (h : checkOne r l t p = Except.ok v) : r ≤ v := by
  cases l with
  | nil => rw [← Except.ok.inj h]
  | cons b s =>
      rw [checkOne_cons] at h
      cases hg : get_lifetime_risk1 t p (bin_age_to_index b) with
      | error e => rw [hg, errorBind] at h; exact Except.noConfusion h
      | ok g =>
          rw [hg, okBind] at h
          rw [← Except.ok.inj h]
          exact le_max_left r g

theorem checkMotherAunt_ge {r v : ℚ} {m : ℤ} {ma : List ℤ} {t : Table3}
    {p : ℤ} (h : checkMotherAunt r m ma t p = Except.ok v) : r ≤ v := by
  cases hma : sort_ages ma with
  | nil =>
      rw [checkMotherAunt_sorted_nil hma] at h
      rw [← Except.ok.inj h]
  | cons b s =>
      rw [checkMotherAunt_sorted hma] at h
      cases hg : get_lifetime_risk2 t p (bin_age_to_index m)
          (bin_age_to_index b) with
      | error e => rw [hg, errorBind] at h; exact Except.noConfusion h
      | ok g =>
          rw [hg, okBind] at h
          rw [← Except.ok.inj h]
          exact le_max_left r g

theorem checkOne_mono {r r' v v' : ℚ} {l l' : List ℤ} {a : ℤ} {t : Table2}
    {p : ℤ} (hl : l' = l ∨ l' = l ++ [a]) (hrr : r ≤ r')
    (h1 : checkOne r l t p = Except.ok v)
    (h2 : checkOne r' l' t p = Except.ok v') : v ≤ v' := by
  cases l with
  | nil =>
      rcases hl with rfl | rfl
      · rw [← Except.ok.inj h1, ← Except.ok.inj h2]; exact hrr
      · rw [← Except.ok.inj h1]
        exact le_trans hrr (checkOne_ge h2)
  | cons b s =>
      have hcons : ∃ s', l' = b :: s' := by
        rcases hl with rfl | rfl
        · exact ⟨s, rfl⟩
        · exact ⟨s ++ [a], rfl⟩
      obtain ⟨s', rfl⟩ := hcons
      rw [checkOne_cons] at h1 h2
      cases hg : get_lifetime_risk1 t p (bin_age_to_index b) with
      | error e => rw [hg, errorBind] at h1; exact Except.noConfusion h1
      | ok g =>
          rw [hg, okBind] at h1 h2
          rw [← Except.ok.inj h1, ← Except.ok.inj h2]
          exact max_le_max hrr le_rfl

theorem checkTwoSame_mono {r r' v v' : ℚ} {l l' : List ℤ} {a : ℤ}
    {t : Table3} {p : ℤ} (hl : l' = l ∨ l' = l ++ [a]) (hrr : r ≤ r')
    (h1 : checkTwoSame r l t p = Except.ok v)
    (h2 : checkTwoSame r' l' t p = Except.ok v') : v ≤ v' := by
  cases l with
  | nil =>
      rcases hl with rfl | rfl
      · rw [← Except.ok.inj h1, ← Except.ok.inj h2]; exact hrr
      · rw [← Except.ok.inj h1, ← Except.ok.inj h2]; exact hrr
  | cons b s =>
      cases s with
      | nil =>
          rcases hl with rfl | rfl
          · rw [← Except.ok.inj h1, ← Except.ok.inj h2]; exact hrr
          · simp only [List.cons_append, List.nil_append] at h2
            rw [← Except.ok.inj h1]
            rw [checkTwoSame_cons2] at h2
            cases hg : get_lifetime_risk2 t p (bin_age_to_index b)
                (bin_age_to_index a) with
            | error e => rw [hg, errorBind] at h2; exact Except.noConfusion h2
            | ok g =>
                rw [hg, okBind] at h2
                rw [← Except.ok.inj h2]
                exact le_trans hrr (le_max_left r' g)
      | cons c s2 =>
          have hcons : ∃ s', l' = b :: c :: s' := by
            rcases hl with rfl | rfl
            · exact ⟨s2, rfl⟩
            · exact ⟨s2 ++ [a], rfl⟩
          obtain ⟨s', rfl⟩ := hcons
          rw [checkTwoSame_cons2] at h1 h2
          cases hg : get_lifetime_risk2 t p (bin_age_to_index b)
              (bin_age_to_index c) with
          | error e => rw [hg, errorBind] at h1; exact Except.noConfusion h1
          | ok g =>
              rw [hg, okBind] at h1 h2
              rw [← Except.ok.inj h1, ← Except.ok.inj h2]
              exact max_le_max hrr le_rfl

theorem checkMotherAunt_mono {r r' v v' : ℚ} {m : ℤ} {ma ma' : List ℤ}
    {a : ℤ} {t : Table3} {p : ℤ}
    (hl : sort_ages ma' = sort_ages ma ∨ sort_ages ma' = sort_ages ma ++ [a])
    (hrr : r ≤ r')
    (h1 : checkMotherAunt r m ma t p = Except.ok v)
    (h2 : checkMotherAunt r' m ma' t p = Except.ok v') : v ≤ v' := by
  cases hma : sort_ages ma with
  | nil =>
      rw [checkMotherAunt_sorted_nil hma] at h1
      rw [← Except.ok.inj h1]
      exact le_trans hrr (checkMotherAunt_ge h2)
  | cons b s =>
      rw [hma] at hl
      have hcons : ∃ s', sort_ages ma' = b :: s' := by
        rcases hl with he | he
        · exact ⟨s, he⟩
        · exact ⟨s ++ [a], he⟩
      obtain ⟨s', hma'⟩ := hcons
      rw [checkMotherAunt_sorted hma] at h1
      rw [checkMotherAunt_sorted hma'] at h2
      cases hg : get_lifetime_risk2 t p (bin_age_to_index m)
          (bin_age_to_index b) with
      | error e => rw [hg, errorBind] at h1; exact Except.noConfusion h1
      | ok g =>
          rw [hg, okBind] at h1 h2
          rw [← Except.ok.inj h1, ← Except.ok.inj h2]
          exact max_le_max hrr le_rfl

theorem checkDiff_mono {r r' v v' : ℚ} {m m' q q' : List ℤ} {a : ℤ}
    {t : Table3} {age : ℤ}
    (hm : m' = m ∨ m' = m ++ [a]) (hq : q' = q ∨ q' = q ++ [a])
    (hrr : r ≤ r')
    (h1 : checkDiff r m q t age = Except.ok v)
    (h2 : checkDiff r' m' q' t age = Except.ok v') : v ≤ v' := by
  have hdiff_ge : ∀ {rr vv : ℚ} {mm qq : List ℤ},
      checkDiff rr mm qq t age = Except.ok vv → rr ≤ vv := by
    intro rr vv mm qq hh
    match mm, qq with
    | [], [] => rw [← Except.ok.inj hh]
    | [], b :: u => rw [← Except.ok.inj hh]
    | b :: u, [] => rw [← Except.ok.inj hh]
    | b :: u, c :: w =>
        rw [checkDiff_cons2] at hh
        cases hg : get_lifetime_risk2 t age (bin_age_to_index b)
            (bin_age_to_index c) with
        | error e => rw [hg, errorBind] at hh; exact Except.noConfusion hh
        | ok g =>
            rw [hg, okBind] at hh
            rw [← Except.ok.inj hh]
            exact le_max_left rr g
  match m, q with
  | [], _ =>
      have h1v : v = r := by
        match q, h1 with
        | [], h1 => exact (Except.ok.inj h1).symm
        | b :: u, h1 => exact (Except.ok.inj h1).symm
      rw [h1v]
      exact le_trans hrr (hdiff_ge h2)
  | b :: s, [] =>
      have h1v : v = r := (Except.ok.inj h1).symm
      rw [h1v]
      exact le_trans hrr (hdiff_ge h2)
  | b :: s, c :: u =>
      have hconsm : ∃ s', m' = b :: s' := by
        rcases hm with rfl | rfl
        · exact ⟨s, rfl⟩
        · exact ⟨s ++ [a], rfl⟩
      have hconsq : ∃ u', q' = c :: u' := by
        rcases hq with rfl | rfl
        · exact ⟨u, rfl⟩
        · exact ⟨u ++ [a], rfl⟩
      obtain ⟨s', rfl⟩ := hconsm
      obtain ⟨u', rfl⟩ := hconsq
      rw [checkDiff_cons2] at h1 h2
      cases hg : get_lifetime_risk2 t age (bin_age_to_index b)
          (bin_age_to_index c) with
      | error e => rw [hg, errorBind] at h1; exact Except.noConfusion h1
      | ok g =>
          rw [hg, okBind] at h1 h2
          rw [← Except.ok.inj h1, ← Except.ok.inj h2]
          exact max_le_max hrr le_rfl

/-- Monotonicity of the tail of the accumulation chain (the three
two-relative checks and the opposite-sides check). -/
theorem risk_steps_tail_mono (T : ClausTables) (p : ℤ) {a : ℤ}
    {fd fd' msd msd' psd psd' : List ℤ} {r3 r3' v v' : ℚ}
    (hfd : fd' = fd ∨ fd' = fd ++ [a])
    (hmsd : msd' = msd ∨ msd' = msd ++ [a])
    (hpsd : psd' = psd ∨ psd' = psd ++ [a])
    (m3 : r3 ≤ r3')
    (hv : (do
        let risk ← checkTwoSame r3 fd T.TWO_FIRST_DEG_TABLE p
        let risk ← checkTwoSame risk msd T.TWO_SEC_DEG_SAME_SIDE_TABLE p
        let risk ← checkTwoSame risk psd T.TWO_SEC_DEG_SAME_SIDE_TABLE p
        checkDiff risk msd psd T.TWO_SEC_DEG_DIFF_SIDE_TABLE p) =
      Except.ok v)
    (hv' : (do
        let risk ← checkTwoSame r3' fd' T.TWO_FIRST_DEG_TABLE p
        let risk ← checkTwoSame risk msd' T.TWO_SEC_DEG_SAME_SIDE_TABLE p
        let risk ← checkTwoSame risk psd' T.TWO_SEC_DEG_SAME_SIDE_TABLE p
        checkDiff risk msd' psd' T.TWO_SEC_DEG_DIFF_SIDE_TABLE p) =
      Except.ok v') :
    v ≤ v' := by
  cases hs5 : checkTwoSame r3 fd T.TWO_FIRST_DEG_TABLE p with
  | error e => simp only [hs5, errorBind] at hv; exact Except.noConfusion hv
  | ok r5 =>
  cases hs5' : checkTwoSame r3' fd' T.TWO_FIRST_DEG_TABLE p with
  | error e =>
      simp only [hs5', errorBind] at hv'
      exact Except.noConfusion hv'
  | ok r5' =>
  simp only [hs5, okBind] at hv
  simp only [hs5', okBind] at hv'
  have m5 : r5 ≤ r5' := checkTwoSame_mono hfd m3 hs5 hs5'
  cases hs6 : checkTwoSame r5 msd T.TWO_SEC_DEG_SAME_SIDE_TABLE p with
  | error e => simp only [hs6, errorBind] at hv; exact Except.noConfusion hv
  | ok r6 =>
  cases hs6' : checkTwoSame r5' msd' T.TWO_SEC_DEG_SAME_SIDE_TABLE p with
  | error e =>
      simp only [hs6', errorBind] at hv'
      exact Except.noConfusion hv'
  | ok r6' =>
  simp only [hs6, okBind] at hv
  simp only [hs6', okBind] at hv'
  have m6 : r6 ≤ r6' := checkTwoSame_mono hmsd m5 hs6 hs6'
  cases hs7 : checkTwoSame r6 psd T.TWO_SEC_DEG_SAME_SIDE_TABLE p with
  | error e => simp only [hs7, errorBind] at hv; exact Except.noConfusion hv
  | ok r7 =>
  cases hs7' : checkTwoSame r6' psd' T.TWO_SEC_DEG_SAME_SIDE_TABLE p with
  | error e =>
      simp only [hs7', errorBind] at hv'
      exact Except.noConfusion hv'
  | ok r7' =>
  simp only [hs7, okBind] at hv
  simp only [hs7', okBind] at hv'
  have m7 : r7 ≤ r7' := checkTwoSame_mono hpsd m6 hs7 hs7'
  exact checkDiff_mono hmsd hpsd m7 hv hv'

/-- Monotonicity of the whole accumulation chain: when each derived list
either is unchanged or gains the new age `a` at its end, the sorted aunt
lists likewise, and the mother is unchanged (or newly set with the aunt
lists untouched), a successful new run yields at least the old risk. -/
theorem risk_steps_mono (T : ClausTables) (p : ℤ) {a m m' : ℤ}
    {fd fd' sd sd' msd msd' psd psd' ma ma' pa pa' : List ℤ} {v v' : ℚ}
    (hfd : fd' = fd ∨ fd' = fd ++ [a])
    (hsd : sd' = sd ∨ sd' = sd ++ [a])
    (hmsd : msd' = msd ∨ msd' = msd ++ [a])
    (hpsd : psd' = psd ∨ psd' = psd ++ [a])
    (hma : sort_ages ma' = sort_ages ma ∨
      sort_ages ma' = sort_ages ma ++ [a])
    (hpa : sort_ages pa' = sort_ages pa ∨
      sort_ages pa' = sort_ages pa ++ [a])
    (hm : m' = m ∨ (m = 0 ∧ m' ≠ 0 ∧ ma' = ma ∧ pa' = pa))
    (hv : risk_steps T p m fd sd msd psd ma pa = Except.ok v)
    (hv' : risk_steps T p m' fd' sd' msd' psd' ma' pa' = Except.ok v') :
    v ≤ v' := by
  unfold risk_steps at hv hv'
  simp only [] at hv hv'
  cases hs1 : checkOne 0 fd T.ONE_FIRST_DEG_TABLE p with
  | error e => simp only [hs1, errorBind] at hv; exact Except.noConfusion hv
  | ok r1 =>
  cases hs1' : checkOne 0 fd' T.ONE_FIRST_DEG_TABLE p with
  | error e =>
      simp only [hs1', errorBind] at hv'
      exact Except.noConfusion hv'
  | ok r1' =>
  simp only [hs1, okBind] at hv
  simp only [hs1', okBind] at hv'
  have m1 : r1 ≤ r1' := checkOne_mono hfd le_rfl hs1 hs1'
  cases hs2 : checkOne r1 sd T.ONE_SECOND_DEG_TABLE p with
  | error e => simp only [hs2, errorBind] at hv; exact Except.noConfusion hv
  | ok r2 =>
  cases hs2' : checkOne r1' sd' T.ONE_SECOND_DEG_TABLE p with
  | error e =>
      simp only [hs2', errorBind] at hv'
      exact Except.noConfusion hv'
  | ok r2' =>
  simp only [hs2, okBind] at hv
  simp only [hs2', okBind] at hv'
  have m2 : r2 ≤ r2' := checkOne_mono hsd m1 hs2 hs2'
  rcases hm with rfl | ⟨hm0, hm'0, rfl, rfl⟩
  · by_cases hq : m' ≠ 0
    · rw [if_pos hq] at hv hv'
      cases hs3 : checkMotherAunt r2 m' ma T.MOTHER_MATERNAL_AUNT p with
      | error e =>
          simp only [hs3, errorBind] at hv
          exact Except.noConfusion hv
      | ok rA =>
      cases hs3' : checkMotherAunt r2' m' ma' T.MOTHER_MATERNAL_AUNT p with
      | error e =>
          simp only [hs3', errorBind] at hv'
          exact Except.noConfusion hv'
      | ok rA' =>
      simp only [hs3, okBind] at hv
      simp only [hs3', okBind] at hv'
      have mA : rA ≤ rA' := checkMotherAunt_mono hma m2 hs3 hs3'
      cases hs4 : checkMotherAunt rA m' pa T.MOTHER_PATERNAL_AUNT p with
      | error e =>
          simp only [hs4, errorBind] at hv
          exact Except.noConfusion hv
      | ok rB =>
      cases hs4' : checkMotherAunt rA' m' pa' T.MOTHER_PATERNAL_AUNT p with
      | error e =>
          simp only [hs4', errorBind] at hv'
          exact Except.noConfusion hv'
      | ok rB' =>
      simp only [hs4, okBind] at hv
      simp only [hs4', okBind] at hv'
      have mB : rB ≤ rB' := checkMotherAunt_mono hpa mA hs4 hs4'
      exact risk_steps_tail_mono T p hfd hmsd hpsd mB hv hv'
    · rw [if_neg hq] at hv hv'
      simp only [pureEqOk, okBind] at hv hv'
      exact risk_steps_tail_mono T p hfd hmsd hpsd m2 hv hv'
  · rw [if_neg (fun hc => hc hm0)] at hv
    simp only [pureEqOk, okBind] at hv
    rw [if_pos hm'0] at hv'
    cases hs3' : checkMotherAunt r2' m' ma' T.MOTHER_MATERNAL_AUNT p with
    | error e =>
        simp only [hs3', errorBind] at hv'
        exact Except.noConfusion hv'
    | ok rA' =>
    simp only [hs3', okBind] at hv'
    cases hs4' : checkMotherAunt rA' m' pa' T.MOTHER_PATERNAL_AUNT p with
    | error e =>
        simp only [hs4', errorBind] at hv'
        exact Except.noConfusion hv'
    | ok rB' =>
    simp only [hs4', okBind] at hv'
    have mB : r2 ≤ rB' := le_trans m2 (le_trans (checkMotherAunt_ge hs3')
      (checkMotherAunt_ge hs4'))
    exact risk_steps_tail_mono T p hfd hmsd hpsd mB hv hv'

/-- Appending a maximal in-range age sorts to the end. -/
theorem sort_ages_with_max {l l' : List ℤ} {a : ℤ}
    (hperm : l'.Perm (l ++ [a]))
    (ha1 : VALID_MIN_AGE ≤ a) (ha2 : a ≤ VALID_MAX_AGE)
    (hdom : ∀ x ∈ l, x ≤ a) :
    sort_ages l' = sort_ages l ++ [a] := by
  have ha1' : (20:ℤ) ≤ a := ha1
  have ha2' : a ≤ 79 := ha2
  have hivr : in_valid_range a = true := by
    simp only [in_valid_range, VALID_MAX_AGE, VALID_MIN_AGE,
      decide_eq_true_eq]
    omega
  apply List.eq_of_perm_of_sorted ?_ (sort_ages_sorted l')
  · refine List.pairwise_append.mpr ⟨sort_ages_sorted l, ?_, ?_⟩
    · simp
    · intro x hx y hy
      rw [List.mem_singleton] at hy
      subst hy
      have hx' : x ∈ l.filter in_valid_range :=
        ((sort_ages_perm_filter l).mem_iff).mp hx
      exact hdom x (List.mem_of_mem_filter hx')
  · refine (sort_ages_perm_filter l').trans ?_
    have h2 : (l ++ [a]).filter in_valid_range =
        l.filter in_valid_range ++ [a] := by
      rw [List.filter_append]
      congr 1
      simp [List.filter_cons, hivr]
    have h3 := hperm.filter in_valid_range
    rw [h2] at h3
    exact h3.trans ((sort_ages_perm_filter l).symm.append (List.Perm.refl [a]))

/-- A category concatenation that gains a dominating in-range age `a`
somewhere in the middle yields the old sorted list with `a` appended. -/
theorem derived_cat_append {C C' : List ℤ} {a : ℤ}
    (hperm : C'.Perm (C ++ [a]))
    (ha1 : VALID_MIN_AGE ≤ a) (ha2 : a ≤ VALID_MAX_AGE)
    (hdom : ∀ x ∈ C, x ≤ a) :
    sort_ages (C'.filter is_truthy) = sort_ages (C.filter is_truthy) ++ [a] := by
  have ha1' : (20:ℤ) ≤ a := ha1
  have htr : is_truthy a = true := by
    simp only [is_truthy, decide_eq_true_eq]
    omega
  apply sort_ages_with_max ?_ ha1 ha2
    (fun x hx => hdom x (List.mem_of_mem_filter hx))
  have h2 : (C ++ [a]).filter is_truthy = C.filter is_truthy ++ [a] := by
    rw [List.filter_append]
    congr 1
    simp [List.filter_cons, htr]
  have h3 := hperm.filter is_truthy
  rw [h2] at h3
  exact h3

/-! ## Claim C5 -/

/-- Counterexample to claim C5 as stated: with the spec-modelled tables
(all cells in `[0,1]`), patient age 40 and one maternal aunt at 45 the
risk is `0.325`; adding a second, qualifying maternal-aunt age 25 lowers
the result to `0.318`, because the one-second-degree lookup now uses the
new youngest age whose table value is smaller. -/
theorem claim_C5_counterexample :
    calculate_risk specTables 40
        { emptyHistory with maternal_aunt_onset_ages := [45] } =
      Except.ok (some (13/40)) ∧
    calculate_risk specTables 40
        (addAge { emptyHistory with maternal_aunt_onset_ages := [45] }
          RelCat.maternalAunt 25) =
      Except.ok (some (159/500)) ∧
    VALID_MIN_AGE ≤ (25:ℤ) ∧ (25:ℤ) ≤ VALID_MAX_AGE ∧
    ((159:ℚ)/500 < 13/40) :=
  ⟨by with_unfolding_all decide, by with_unfolding_all decide,
   by decide, by decide, by with_unfolding_all decide⟩

/-- Claim C5, amended.  Adding one additional qualifying relative age `a`
(in `[20, 79]`) that is at least every onset age already supplied — so
that the youngest and second-youngest ages used by the already-applicable
steps are unchanged — never decreases the returned risk, for every table
set: every previously computed candidate is recomputed with identical
arguments, and at most new candidates join the maximum.  (For the mother
category, the age is added by setting the previously absent mother
field.)  Unrestricted monotonicity is false; see the counterexample. -/
theorem claim_C5_amended_monotonicity (T : ClausTables) (patient_age : ℤ)
    (h : RelativeHistory) (c : RelCat) (a : ℤ) (r r' : ℚ)
    (ha1 : VALID_MIN_AGE ≤ a) (ha2 : a ≤ VALID_MAX_AGE)
    (hdom : ageDominates h a)
    (hmother : c = RelCat.mother → h.mother_onset_age = 0)
    (hok : calculate_risk T patient_age h = Except.ok (some r))
    (hok' : calculate_risk T patient_age (addAge h c a) =
      Except.ok (some r')) :
    r ≤ r' := by
  obtain ⟨hbm, hbd, hbs, hbma, hbpa, hbmg, hbpg, hbmh, hbph⟩ := hdom
  have ha1' : (20:ℤ) ≤ a := ha1
  have ha2' : a ≤ 79 := ha2
  have hane : a ≠ 0 := by omega
  have hguard : ¬(VALID_MAX_AGE < patient_age ∧
      patient_age < VALID_MIN_AGE) := by
    simp only [VALID_MAX_AGE, VALID_MIN_AGE]
    rintro ⟨hg1, hg2⟩
    omega
  unfold calculate_risk at hok hok'
  rw [if_neg hguard] at hok hok'
  cases hrisk : risk_steps T patient_age h.mother_onset_age
      (first_degree_ages h) (second_degree_ages h)
      (maternal_second_degree_ages h) (paternal_second_degree_ages h)
      h.maternal_aunt_onset_ages h.paternal_aunt_onset_ages with
  | error e =>
      simp only [hrisk, errorBind] at hok
      exact Except.noConfusion hok
  | ok risk =>
  cases hrisk' : risk_steps T patient_age (addAge h c a).mother_onset_age
      (first_degree_ages (addAge h c a)) (second_degree_ages (addAge h c a))
      (maternal_second_degree_ages (addAge h c a))
      (paternal_second_degree_ages (addAge h c a))
      (addAge h c a).maternal_aunt_onset_ages
      (addAge h c a).paternal_aunt_onset_ages with
  | error e =>
      simp only [hrisk', errorBind] at hok'
      exact Except.noConfusion hok'
  | ok risk' =>
  simp only [hrisk, okBind, pureEqOk] at hok
  simp only [hrisk', okBind, pureEqOk] at hok'
  have hr : risk = r := by
    by_cases hpos : 0 < risk
    · rw [if_pos hpos] at hok
      exact Option.some.inj (Except.ok.inj hok)
    · rw [if_neg hpos] at hok
      exact Option.noConfusion (Except.ok.inj hok)
  have hr' : risk' = r' := by
    by_cases hpos : 0 < risk'
    · rw [if_pos hpos] at hok'
      exact Option.some.inj (Except.ok.inj hok')
    · rw [if_neg hpos] at hok'
      exact Option.noConfusion (Except.ok.inj hok')
  subst hr
  subst hr'
  -- dominance over the category concatenations
  have domfd : ∀ x ∈ ((if h.mother_onset_age ≠ 0 then [h.mother_onset_age]
      else []) ++ h.full_sister_onset_ages ++ h.daughter_onset_ages),
      x ≤ a := by
    intro x hx
    simp only [List.mem_append] at hx
    rcases hx with (hx | hx) | hx
    · split_ifs at hx with hmz
      · rw [List.mem_singleton] at hx
        subst hx
        exact hbm
      · exact absurd hx (List.not_mem_nil x)
    · exact hbs x hx
    · exact hbd x hx
  have dom6 : ∀ x ∈ (h.maternal_aunt_onset_ages ++
      h.paternal_aunt_onset_ages ++ h.maternal_grandmother_onset_ages ++
      h.paternal_grandmother_onset_ages ++
      h.maternal_half_sister_onset_ages ++
      h.paternal_half_sister_onset_ages), x ≤ a := by
    intro x hx
    simp only [List.mem_append] at hx
    rcases hx with ((((hx | hx) | hx) | hx) | hx) | hx
    exacts [hbma x hx, hbpa x hx, hbmg x hx, hbpg x hx, hbmh x hx,
      hbph x hx]
  have dom3m : ∀ x ∈ (h.maternal_aunt_onset_ages ++
      h.maternal_grandmother_onset_ages ++
      h.maternal_half_sister_onset_ages), x ≤ a := by
    intro x hx
    simp only [List.mem_append] at hx
    rcases hx with (hx | hx) | hx
    exacts [hbma x hx, hbmg x hx, hbmh x hx]
  have dom3p : ∀ x ∈ (h.paternal_aunt_onset_ages ++
      h.paternal_grandmother_onset_ages ++
      h.paternal_half_sister_onset_ages), x ≤ a := by
    intro x hx
    simp only [List.mem_append] at hx
    rcases hx with (hx | hx) | hx
    exacts [hbpa x hx, hbpg x hx, hbph x hx]
  cases c with
  | mother =>
      have hmz : h.mother_onset_age = 0 := hmother rfl
      refine risk_steps_mono T patient_age (a := a) (Or.inr ?_) (Or.inl rfl)
        (Or.inl rfl) (Or.inl rfl) (Or.inl rfl) (Or.inl rfl)
        (Or.inr ⟨hmz, hane, rfl, rfl⟩) hrisk hrisk'
      simp only [first_degree_ages, addAge, hmz]
      rw [if_pos hane, if_neg (by omega : ¬(0:ℤ) ≠ 0)]
      exact derived_cat_append
        (List.perm_iff_count.mpr (fun x => by
          simp only [List.count_append, List.count_nil]
          omega))
        ha1 ha2
        (by
          intro x hx
          simp only [List.mem_append] at hx
          rcases hx with (hx | hx) | hx
          · exact absurd hx (List.not_mem_nil x)
          · exact hbs x hx
          · exact hbd x hx)
  | daughter =>
      refine risk_steps_mono T patient_age (a := a) (Or.inr ?_) (Or.inl rfl)
        (Or.inl rfl) (Or.inl rfl) (Or.inl rfl) (Or.inl rfl)
        (Or.inl rfl) hrisk hrisk'
      simp only [first_degree_ages, addAge]
      exact derived_cat_append
        (List.perm_iff_count.mpr (fun x => by
          simp only [List.count_append, List.count_nil]
          omega))
        ha1 ha2 domfd
  | fullSister =>
      refine risk_steps_mono T patient_age (a := a) (Or.inr ?_) (Or.inl rfl)
        (Or.inl rfl) (Or.inl rfl) (Or.inl rfl) (Or.inl rfl)
        (Or.inl rfl) hrisk hrisk'
      simp only [first_degree_ages, addAge]
      exact derived_cat_append
        (List.perm_iff_count.mpr (fun x => by
          simp only [List.count_append, List.count_nil]
          omega))
        ha1 ha2 domfd
  | maternalAunt =>
      refine risk_steps_mono T patient_age (a := a) (Or.inl rfl) (Or.inr ?_)
        (Or.inr ?_) (Or.inl rfl) (Or.inr ?_) (Or.inl rfl)
        (Or.inl rfl) hrisk hrisk'
      · simp only [second_degree_ages, addAge]
        exact derived_cat_append
          (List.perm_iff_count.mpr (fun x => by
            simp only [List.count_append, List.count_nil]
            omega))
          ha1 ha2 dom6
      · simp only [maternal_second_degree_ages, addAge]
        exact derived_cat_append
          (List.perm_iff_count.mpr (fun x => by
            simp only [List.count_append, List.count_nil]
            omega))
          ha1 ha2 dom3m
      · simp only [addAge]
        exact sort_ages_with_max (List.Perm.refl _) ha1 ha2 hbma
  | paternalAunt =>
      refine risk_steps_mono T patient_age (a := a) (Or.inl rfl) (Or.inr ?_)
        (Or.inl rfl) (Or.inr ?_) (Or.inl rfl) (Or.inr ?_)
        (Or.inl rfl) hrisk hrisk'
      · simp only [second_degree_ages, addAge]
        exact derived_cat_append
          (List.perm_iff_count.mpr (fun x => by
            simp only [List.count_append, List.count_nil]
            omega))
          ha1 ha2 dom6
      · simp only [paternal_second_degree_ages, addAge]
        exact derived_cat_append
          (List.perm_iff_count.mpr (fun x => by
            simp only [List.count_append, List.count_nil]
            omega))
          ha1 ha2 dom3p
      · simp only [addAge]
        exact sort_ages_with_max (List.Perm.refl _) ha1 ha2 hbpa
  | maternalGrandmother =>
      refine risk_steps_mono T patient_age (a := a) (Or.inl rfl) (Or.inr ?_)
        (Or.inr ?_) (Or.inl rfl) (Or.inl rfl) (Or.inl rfl)
        (Or.inl rfl) hrisk hrisk'
      · simp only [second_degree_ages, addAge]
        exact derived_cat_append
          (List.perm_iff_count.mpr (fun x => by
            simp only [List.count_append, List.count_nil]
            omega))
          ha1 ha2 dom6
      · simp only [maternal_second_degree_ages, addAge]
        exact derived_cat_append
          (List.perm_iff_count.mpr (fun x => by
            simp only [List.count_append, List.count_nil]
            omega))
          ha1 ha2 dom3m
  | paternalGrandmother =>
      refine risk_steps_mono T patient_age (a := a) (Or.inl rfl) (Or.inr ?_)
        (Or.inl rfl) (Or.inr ?_) (Or.inl rfl) (Or.inl rfl)
        (Or.inl rfl) hrisk hrisk'
      · simp only [second_degree_ages, addAge]
        exact derived_cat_append
          (List.perm_iff_count.mpr (fun x => by
            simp only [List.count_append, List.count_nil]
            omega))
          ha1 ha2 dom6
      · simp only [paternal_second_degree_ages, addAge]
        exact derived_cat_append
          (List.perm_iff_count.mpr (fun x => by
            simp only [List.count_append, List.count_nil]
            omega))
          ha1 ha2 dom3p
  | maternalHalfSister =>
      refine risk_steps_mono T patient_age (a := a) (Or.inl rfl) (Or.inr ?_)
        (Or.inr ?_) (Or.inl rfl) (Or.inl rfl) (Or.inl rfl)
        (Or.inl rfl) hrisk hrisk'
      · simp only [second_degree_ages, addAge]
        exact derived_cat_append
          (List.perm_iff_count.mpr (fun x => by
            simp only [List.count_append, List.count_nil]
            omega))
          ha1 ha2 dom6
      · simp only [maternal_second_degree_ages, addAge]
        exact derived_cat_append
          (List.perm_iff_count.mpr (fun x => by
            simp only [List.count_append, List.count_nil]
            omega))
          ha1 ha2 dom3m
  | paternalHalfSister =>
      refine risk_steps_mono T patient_age (a := a) (Or.inl rfl) (Or.inr ?_)
        (Or.inl rfl) (Or.inr ?_) (Or.inl rfl) (Or.inl rfl)
        (Or.inl rfl) hrisk hrisk'
      · simp only [second_degree_ages, addAge]
        exact derived_cat_append
          (List.perm_iff_count.mpr (fun x => by
            simp only [List.count_append, List.count_nil]
            omega))
          ha1 ha2 dom6
      · simp only [paternal_second_degree_ages, addAge]
        exact derived_cat_append
          (List.perm_iff_count.mpr (fun x => by
            simp only [List.count_append, List.count_nil]
            omega))
          ha1 ha2 dom3p

/-- Witness for the amended claim C5: adding a maternal-aunt age 60 (at
least every supplied age) to a history with one maternal aunt at 45
leaves the risk at `0.325`. -/
theorem claim_C5_witness :
    VALID_MIN_AGE ≤ (60:ℤ) ∧ (60:ℤ) ≤ VALID_MAX_AGE ∧
    ageDominates { emptyHistory with maternal_aunt_onset_ages := [45] } 60 ∧
    ((13:ℚ)/40) ≤ ((13:ℚ)/40) :=
  ⟨by decide, by decide, by decide,
   claim_C5_amended_monotonicity specTables 40
     { emptyHistory with maternal_aunt_onset_ages := [45] }
     RelCat.maternalAunt 60 (13/40) (13/40)
     (by decide) (by decide) (by decide)
     (fun hc => RelCat.noConfusion hc)
     (by with_unfolding_all decide) (by with_unfolding_all decide)⟩

end Claus
